import Mathlib

/-!
# Verification of the mission-backend cache pipeline

A shallow embedding of the cache pipeline of `mission-backend-rs`:

* `MissionCachedInfo.generate`   (src/backend/src/cache/mission.rs) — the Mission Aggregator;
* `MissionKPICachedInfo.generate` (src/backend/src/cache/mission.rs) — the KPI Raw Calculator;
* `CachedGlobalKPIState.generate` (src/src/cache/kpi.rs) — the Global Correction Engine;
* `CacheManager` (src/src/cache/manager.rs) — the Cache Scheduler, embedded as an
  interleaving transition system.

Conventions of the embedding:

* Rust `f64` values are modelled as exact rationals `ℚ`.  Floating-point literals of the
  source (`1e-3`, `0.91`, …) are mapped to the corresponding decimal rationals.
* Rust `HashMap` is modelled as an association list `List (k × v)`; `lookupA` is
  `HashMap::get` (first match), `upsertWith` is the `entry(k).or_insert(d)`-then-mutate
  pattern, `insertOv` is `HashMap::insert` (overwrite).  The list order stands for the
  map's iteration order.
* A Rust `unwrap()`/`unreachable!()` on data-dependent lookups is modelled by returning
  `Option` (`none` = panic).  Lookups whose success is established by the surrounding
  lines of the same function are totalised, with a comment at each such place.
-/
namespace MissionBackend

set_option maxRecDepth 100000

/-- `HashMap::get`: first entry of the association list with the given key. -/
def lookupA {α β : Type} [DecidableEq α] : List (α × β) → α → Option β
  | [], _ => none
  | (k, v) :: rest, key => if key = k then some v else lookupA rest key

/-- The Rust pattern `map.entry(k).or_insert(d)` followed by mutating the entry with `f`:
if the key is present its value is replaced by `f v`, otherwise `(k, f d)` is appended. -/
def upsertWith {α β : Type} [DecidableEq α] (m : List (α × β)) (k : α) (d : β) (f : β → β) :
    List (α × β) :=
  match m with
  | [] => [(k, f d)]
  | (k0, v) :: rest => if k = k0 then (k0, f v) :: rest else (k0, v) :: upsertWith rest k d f

/-- `HashMap::insert`: overwrite the value at the key, or append the pair. -/
def insertOv {α β : Type} [DecidableEq α] (m : List (α × β)) (k : α) (v : β) : List (α × β) :=
  upsertWith m k v (fun _ => v)

/-- The key set of an association list. -/
def mapKeys {α β : Type} (m : List (α × β)) : List α := m.map Prod.fst

/-- Map a fallible function over a list, failing when any element fails (an iterator of
`unwrap`ped lookups: `none` models the first panic). -/
def mapO {α β : Type} (f : α → Option β) : List α → Option (List β)
  | [] => some []
  | a :: l =>
    match f a, mapO f l with
    | some b, some bs => some (b :: bs)
    | _, _ => none

/-- Sum of the values of a rational-valued association list (`map.values().sum()`). -/
def valuesSum {α : Type} (m : List (α × ℚ)) : ℚ := (m.map Prod.snd).sum

/-! ## Constants (src/common/src/lib.rs) -/
/-- `pub const FLOAT_EPSILON: f64 = 1e-3;` -/
def FLOAT_EPSILON : ℚ := 1 / 1000

/-- `pub const KPI_CALCULATION_PLAYER_INDEX: f64 = 0.5;` -/
def KPI_CALCULATION_PLAYER_INDEX : ℚ := 1 / 2

/-- `pub const NITRA_GAME_ID: &str = "RES_VEIN_Nitra";` -/
def NITRA_GAME_ID : String := "RES_VEIN_Nitra"

/-! ## KPI enums (src/common/src/kpi.rs) -/
/-- `enum KPIComponent` — the 9 fixed KPI components. -/
inductive KPIComponent : Type
  | Kill
  | Damage
  | Priority
  | Revive
  | Death
  | FriendlyFire
  | Nitra
  | Supply
  | Minerals
  deriving DecidableEq, Repr

/-- `enum CharacterKPIType` — one of five player roles. -/
inductive CharacterKPIType : Type
  | Driller
  | Engineer
  | Gunner
  | Scout
  | ScoutSpecial
  deriving DecidableEq, Repr

/-- `CORRECTION_ITEMS` (src/common/src/lib.rs): the five correctable components. -/
def CORRECTION_ITEMS : List KPIComponent :=
  [KPIComponent.Damage, KPIComponent.Priority, KPIComponent.Kill,
   KPIComponent.Nitra, KPIComponent.Minerals]

/-- `TRANSFORM_KPI_COMPONENTS` (src/common/src/lib.rs). -/
def TRANSFORM_KPI_COMPONENTS : List KPIComponent := CORRECTION_ITEMS

/-- `CharacterKPIType::from_player` (src/common/src/kpi.rs).  The wildcard arm of the
Rust `match` is `unreachable!()`, modelled as `none`. -/
def CharacterKPIType.from_player (character_game_id : String) (player_name : String)
    (scout_special_player_set : List String) : Option CharacterKPIType :=
  if character_game_id = "DRILLER" then some CharacterKPIType.Driller
  else if character_game_id = "ENGINEER" then some CharacterKPIType.Engineer
  else if character_game_id = "GUNNER" then some CharacterKPIType.Gunner
  else if character_game_id = "SCOUT" then
    (if player_name ∈ scout_special_player_set then some CharacterKPIType.ScoutSpecial
     else some CharacterKPIType.Scout)
  else none

/-! ## `friendly_fire_index` (src/backend/src/kpi/mod.rs) -/
/-- `friendly_fire_index(ff_rate)`: `-1000.0` when `ff_rate >= 0.91`, otherwise
`99.0 / (ff_rate - 1.0) + 100.0`. -/
def friendly_fire_index (ff_rate : ℚ) : ℚ :=
  if ff_rate ≥ 91 / 100 then -1000 else 99 / (ff_rate - 1) + 100

/-- `apply_weight_table` (src/backend/src/kpi/mod.rs): multiply each entry by its weight
when the key is present in the table, else pass the entry through unchanged. -/
def apply_weight_table (source weight_table : List (String × ℚ)) : List (String × ℚ) :=
  source.map (fun kv =>
    match lookupA weight_table kv.1 with
    | some w => (kv.1, kv.2 * w)
    | none => (kv.1, kv.2))

/-! ## Cache Scheduler (src/src/cache/manager.rs)

`CacheManager::new` spawns exactly one background thread whose loop is

    while let Ok(cache_type) = rx.recv() {
        working.store(true); … cache_type.update_cache(&context) …
        cache_status.insert(cache_type, (now, result)); working.store(false);
    }

fed by a `sync_channel(8)`.  The embedding is an interleaving transition system: the
bounded channel is the `queue`, each spawned thread is one `WorkerPC` (waiting in
`rx.recv()`, or executing `update_cache` for a cache kind), and producers may enqueue
at any time while the queue holds fewer than 8 jobs.  A generator execution is in
flight exactly while some worker's program counter is `running`. -/
/-- `enum CacheType` (src/src/cache/manager.rs). -/
inductive CacheType : Type
  | MissionRaw
  | MissionKPIRaw
  | GlobalKPIState
  deriving DecidableEq, Repr

/-- Program counter of the cache-manager worker thread: blocked in `rx.recv()`, or
executing `cache_type.update_cache(&context)` for one cache kind. -/
inductive WorkerPC : Type
  | waiting
  | running (job : CacheType)
  deriving DecidableEq, Repr

/-- Whether a worker is currently executing a generator run. -/
def WorkerPC.isRunning : WorkerPC → Bool
  | WorkerPC.waiting => false
  | WorkerPC.running _ => true

/-- State of the scheduler: the bounded job channel, the program counters of all spawned
worker threads, and the status table (outcome per cache kind). -/
structure SchedState : Type where
  queue : List CacheType
  workers : List WorkerPC
  cache_status : List (CacheType × Bool)

/-- `CacheManager::new`: empty channel, empty status map, and ONE spawned worker thread
(the single `std::thread::Builder::new()…spawn` call in the constructor). -/
def CacheManager.new : SchedState :=
  { queue := [], workers := [WorkerPC.waiting], cache_status := [] }

/-- Number of generator runs currently in flight. -/
def runningJobs (s : SchedState) : Nat := (s.workers.filter WorkerPC.isRunning).length

/-- One interleaving step of the system: a producer's `try_schedule` succeeding
(`sync_channel(8)` accepts while it holds fewer than 8 jobs), a worker returning from
`rx.recv()` with the front job, or a worker finishing its `update_cache` run and
recording the outcome in the status table. -/
inductive SchedStep : SchedState → SchedState → Prop
  | try_schedule (s : SchedState) (j : CacheType) (hq : s.queue.length < 8) :
      SchedStep s { s with queue := s.queue ++ [j] }
  | recv (s : SchedState) (i : Nat) (j : CacheType) (rest : List CacheType)
      (hw : s.workers.get? i = some WorkerPC.waiting) (hq : s.queue = j :: rest) :
      SchedStep s { s with queue := rest, workers := s.workers.set i (WorkerPC.running j) }
  | finish (s : SchedState) (i : Nat) (j : CacheType) (ok : Bool)
      (hw : s.workers.get? i = some (WorkerPC.running j)) :
      SchedStep s { s with workers := s.workers.set i WorkerPC.waiting,
                           cache_status := insertOv s.cache_status j ok }

/-- States reachable from the state set up by `CacheManager::new`. -/
def SchedReachable (s : SchedState) : Prop :=
  Relation.ReflTransGen SchedStep CacheManager.new s

/-! ## Raw database rows

The diesel model structs (`crate::db::models`) are not part of the snapshot; the fields
below are exactly those read by `MissionCachedInfo::generate` and
`MissionKPICachedInfo::generate` in src/backend/src/cache/mission.rs.  Integer ids
(`i16`/`i32`) are modelled as `Int`, `f64` quantities as `ℚ`. -/
/-- A `mission` row: the fields read by the aggregator. -/
structure Mission : Type where
  id : Int
  mission_time : Int
  deriving DecidableEq, Repr

/-- A `player_info` row. -/
structure PlayerInfo : Type where
  player_id : Int
  character_id : Int
  present_time : Int
  revive_num : Int
  death_num : Int
  deriving DecidableEq, Repr

/-- A `kill_info` row. -/
structure KillInfoRow : Type where
  player_id : Int
  entity_id : Int
  deriving DecidableEq, Repr

/-- A `damage_info` row (`causer_type`: 0 unknown, 1 player, 2 enemy; same for
`taker_type`). -/
structure DamageInfoRow : Type where
  causer_id : Int
  taker_id : Int
  weapon_id : Int
  causer_type : Int
  taker_type : Int
  damage : ℚ
  deriving DecidableEq, Repr

/-- A `resource_info` row. -/
structure ResourceInfoRow : Type where
  player_id : Int
  resource_id : Int
  amount : ℚ
  deriving DecidableEq, Repr

/-- A `supply_info` row. -/
structure SupplyInfoRow : Type where
  player_id : Int
  ammo : ℚ
  health : ℚ
  deriving DecidableEq, Repr

/-- An `assigned_kpi` row (fields read by `MissionKPICachedInfo::generate`). -/
structure AssignedKPI : Type where
  mission_id : Int
  player_id : Int
  target_kpi_component : Int
  kpi_component_delta_value : ℚ
  total_delta_value : ℚ
  note : Option String
  deriving DecidableEq, Repr

/-! ## Packs (src/common/src/damage.rs) -/
/-- `struct KillPack`. -/
structure KillPack : Type where
  taker_id : Int
  taker_name : String
  total_amount : Int
  deriving DecidableEq, Repr

/-- `struct DamagePack`. -/
structure DamagePack : Type where
  taker_id : Int
  taker_type : Int
  weapon_id : Int
  total_amount : ℚ
  deriving DecidableEq, Repr

/-- `struct SupplyPack`. -/
structure SupplyPack : Type where
  ammo : ℚ
  health : ℚ
  deriving DecidableEq, Repr

/-- `struct WeaponPack`. -/
structure WeaponPack : Type where
  weapon_id : Int
  total_amount : ℚ
  detail : List (String × DamagePack)
  deriving DecidableEq, Repr

/-- `struct IDMapping` (src/backend/src/cache/mission.rs). -/
structure IDMapping : Type where
  id_to_player_name : List (Int × String)
  id_to_entity_game_id : List (Int × String)
  id_to_weapon_game_id : List (Int × String)
  id_to_resource_game_id : List (Int × String)
  deriving DecidableEq, Repr

/-- `struct MissionRawInfo` (src/backend/src/cache/mission.rs). -/
structure MissionRawInfo : Type where
  mission : Mission
  player_info_list : List PlayerInfo
  raw_kill_info_list : List KillInfoRow
  raw_damage_info_list : List DamageInfoRow
  raw_resource_info_list : List ResourceInfoRow
  raw_supply_info_list : List SupplyInfoRow
  deriving DecidableEq, Repr

/-- `struct MissionCachedInfo` (src/backend/src/cache/mission.rs). -/
structure MissionCachedInfo : Type where
  mission_info : Mission
  player_info : List PlayerInfo
  player_index : List (Int × ℚ)
  kill_info : List (Int × List (String × KillPack))
  damage_info : List (Int × List (String × DamagePack))
  weapon_damage_info : List (String × WeaponPack)
  resource_info : List (Int × List (String × ℚ))
  revive_count : List (Int × Int)
  death_count : List (Int × Int)
  supply_info : List (Int × List SupplyPack)
  deriving DecidableEq, Repr

/-- `combine_player_info` (src/backend/src/cache/mission.rs): flatten all inner maps and
sum `key_func` of the values per inner key. -/
def combine_player_info {α V : Type} (origin : List (α × List (String × V)))
    (key_func : V → ℚ) : List (String × ℚ) :=
  ((origin.map Prod.snd).flatten).foldl
    (fun acc sv => upsertWith acc sv.1 0 (fun x => x + key_func sv.2)) []

/-- `MissionCachedInfo::combine_kill_info`. -/
def MissionCachedInfo.combine_kill_info (origin : List (Int × List (String × KillPack))) :
    List (String × ℚ) :=
  combine_player_info origin (fun kill_pack => (kill_pack.total_amount : ℚ))

/-- `MissionCachedInfo::combine_damage_info`: friendly fire (`taker_type == 1`) counts
as `0.0`. -/
def MissionCachedInfo.combine_damage_info (origin : List (Int × List (String × DamagePack))) :
    List (String × ℚ) :=
  combine_player_info origin
    (fun damage_pack => if damage_pack.taker_type = 1 then 0 else damage_pack.total_amount)

/-- `MissionCachedInfo::combine_resource_info`. -/
def MissionCachedInfo.combine_resource_info (origin : List (Int × List (String × ℚ))) :
    List (String × ℚ) :=
  combine_player_info origin (fun x => x)

/-- `map_inner_value` (src/backend/src/cache/mission.rs): keep the outer keys and
filter-map each inner map's values. -/
def map_inner_value {V O : Type} (origin : List (Int × List (String × V)))
    (key_func : V → Option O) : List (Int × List (String × O)) :=
  origin.map (fun kv =>
    (kv.1, kv.2.filterMap (fun iv => (key_func iv.2).map (fun o => (iv.1, o)))))

/-! ## `MissionCachedInfo::generate` (src/backend/src/cache/mission.rs)

Each raw-row loop of the source is one fold below.  A failing `unwrap()` on an id
mapping (a data-integrity panic in Rust) makes the whole generation return `none`. -/
/-- The kill-row loop body: map the entity id through `id_to_entity_game_id` (panic if
missing), canonicalize via `entity_combine`, drop blacklisted entities, and bump the
per-player per-entity kill counter. -/
def processKillRow (entity_blacklist_set : List String)
    (entity_combine : List (String × String)) (id_to_entity_game_id : List (Int × String))
    (acc : List (Int × List (String × KillPack))) (row : KillInfoRow) :
    Option (List (Int × List (String × KillPack))) :=
  match lookupA id_to_entity_game_id row.entity_id with
  | none => none
  | some record_entity_game_id =>
    let killed_entity_game_id :=
      (lookupA entity_combine record_entity_game_id).getD record_entity_game_id
    if killed_entity_game_id ∈ entity_blacklist_set then some acc
    else
      some (upsertWith acc row.player_id []
        (fun player_kill_map =>
          upsertWith player_kill_map killed_entity_game_id
            { taker_id := row.entity_id, taker_name := killed_entity_game_id,
              total_amount := 0 }
            (fun pack => { pack with total_amount := pack.total_amount + 1 })))

/-- The taker classification inside the damage-row loop: `some none` is the `continue`
on a blacklisted entity, outer `none` a panicking id lookup. -/
def damageTaker (entity_blacklist_set : List String)
    (entity_combine : List (String × String)) (id_to_player_name : List (Int × String))
    (id_to_entity_game_id : List (Int × String)) (row : DamageInfoRow) :
    Option (Option (String × Int)) :=
  if row.taker_type = 1 then
    (lookupA id_to_player_name row.taker_id).map (fun n => some (n, 1))
  else
    match lookupA id_to_entity_game_id row.taker_id with
    | none => none
    | some record_entity_game_id =>
      let entity_game_id :=
        (lookupA entity_combine record_entity_game_id).getD record_entity_game_id
      if entity_game_id ∈ entity_blacklist_set then some none
      else some (some (entity_game_id, row.taker_type))

/-- The damage-row loop body: skip non-player causers, classify the taker, then
accumulate both the per-causer map and the per-weapon detail map. -/
def processDamageRow (entity_blacklist_set : List String)
    (entity_combine weapon_combine : List (String × String))
    (id_to_player_name id_to_entity_game_id id_to_weapon_game_id : List (Int × String))
    (acc : List (Int × List (String × DamagePack)) × List (String × List (String × DamagePack)))
    (row : DamageInfoRow) :
    Option (List (Int × List (String × DamagePack)) ×
            List (String × List (String × DamagePack))) :=
  if row.causer_type ≠ 1 then some acc
  else
    match damageTaker entity_blacklist_set entity_combine id_to_player_name
        id_to_entity_game_id row with
    | none => none
    | some none => some acc
    | some (some (taker_game_id, taker_type)) =>
      let damage_info := upsertWith acc.1 row.causer_id []
        (fun player_damage_map =>
          upsertWith player_damage_map taker_game_id
            { taker_id := row.taker_id, taker_type := taker_type,
              weapon_id := row.weapon_id, total_amount := 0 }
            (fun pack => { pack with total_amount := pack.total_amount + row.damage }))
      match lookupA id_to_weapon_game_id row.weapon_id with
      | none => none
      | some record_weapon_game_id =>
        let weapon_game_id :=
          (lookupA weapon_combine record_weapon_game_id).getD record_weapon_game_id
        let weapon_details := upsertWith acc.2 weapon_game_id []
          (fun detail_map =>
            upsertWith detail_map taker_game_id
              { taker_id := row.taker_id, taker_type := taker_type,
                weapon_id := row.weapon_id, total_amount := 0 }
              (fun pack => { pack with total_amount := pack.total_amount + row.damage }))
        some (damage_info, weapon_details)

/-- The resource-row loop body. -/
def processResourceRow (id_to_resource_game_id : List (Int × String))
    (acc : List (Int × List (String × ℚ))) (row : ResourceInfoRow) :
    Option (List (Int × List (String × ℚ))) :=
  match lookupA id_to_resource_game_id row.resource_id with
  | none => none
  | some resource_game_id =>
    some (upsertWith acc row.player_id []
      (fun m => upsertWith m resource_game_id 0 (fun v => v + row.amount)))

/-- The supply-row loop body. -/
def processSupplyRow (acc : List (Int × List SupplyPack)) (row : SupplyInfoRow) :
    List (Int × List SupplyPack) :=
  upsertWith acc row.player_id []
    (fun l => l ++ [{ ammo := row.ammo, health := row.health }])

/-- The final `weapon_damage_info` construction: per weapon, total the detail damage and
map the game id back to the numeric id (`weapon_game_id_to_id.get(..).unwrap()`). -/
def mkWeaponDamageInfo (weapon_game_id_to_id : List (String × Int))
    (weapon_details : List (String × List (String × DamagePack))) :
    Option (List (String × WeaponPack)) :=
  weapon_details.mapM (fun kv =>
    match lookupA weapon_game_id_to_id kv.1 with
    | none => none
    | some weapon_id =>
      some (kv.1,
        { weapon_id := weapon_id,
          total_amount := (kv.2.map (fun iv => iv.2.total_amount)).sum,
          detail := kv.2 }))

/-- `MissionCachedInfo::generate`. -/
def MissionCachedInfo.generate (mission_raw_info : MissionRawInfo)
    (entity_blacklist_set : List String)
    (entity_combine weapon_combine : List (String × String)) (id_mapping : IDMapping) :
    Option MissionCachedInfo :=
  let player_info_list := mission_raw_info.player_info_list
  let mission_info := mission_raw_info.mission
  let player_index := player_info_list.foldl
    (fun acc p => insertOv acc p.player_id
      ((p.present_time : ℚ) / (mission_info.mission_time : ℚ))) []
  let revive_count := player_info_list.foldl
    (fun acc p => insertOv acc p.player_id p.revive_num) []
  let death_count := player_info_list.foldl
    (fun acc p => insertOv acc p.player_id p.death_num) []
  match mission_raw_info.raw_kill_info_list.foldlM
      (processKillRow entity_blacklist_set entity_combine
        id_mapping.id_to_entity_game_id) [] with
  | none => none
  | some kill_info =>
    let weapon_game_id_to_id := id_mapping.id_to_weapon_game_id.foldl
      (fun acc kv => insertOv acc kv.2 kv.1) []
    match mission_raw_info.raw_damage_info_list.foldlM
        (processDamageRow entity_blacklist_set entity_combine weapon_combine
          id_mapping.id_to_player_name id_mapping.id_to_entity_game_id
          id_mapping.id_to_weapon_game_id) ([], []) with
    | none => none
    | some (damage_info, weapon_details) =>
      match mission_raw_info.raw_resource_info_list.foldlM
          (processResourceRow id_mapping.id_to_resource_game_id) [] with
      | none => none
      | some resource_info =>
        let supply_info := mission_raw_info.raw_supply_info_list.foldl processSupplyRow []
        match mkWeaponDamageInfo weapon_game_id_to_id weapon_details with
        | none => none
        | some weapon_damage_info =>
          some { mission_info := mission_info, player_info := player_info_list,
                 player_index := player_index, kill_info := kill_info,
                 damage_info := damage_info, weapon_damage_info := weapon_damage_info,
                 resource_info := resource_info, revive_count := revive_count,
                 death_count := death_count, supply_info := supply_info }

/-! ## KPI Raw Calculator (src/backend/src/cache/mission.rs, `MissionKPICachedInfo`) -/
/-- `struct PlayerRawKPIData`. -/
structure PlayerRawKPIData : Type where
  source_value : ℚ
  weighted_value : ℚ
  mission_total_weighted_value : ℚ
  raw_index : ℚ
  deriving DecidableEq, Repr

/-- `struct PlayerAssignedKPIInfo` (src/common/src/kpi.rs). -/
structure PlayerAssignedKPIInfo : Type where
  by_component : List (KPIComponent × ℚ)
  overall : Option ℚ
  note : String
  deriving DecidableEq, Repr

/-- `struct IndexTransformRangeConfig` (src/common/src/kpi.rs). -/
structure IndexTransformRangeConfig : Type where
  rank_range : ℚ × ℚ
  transform_range : ℚ × ℚ
  deriving DecidableEq, Repr

/-- `struct IndexTransformRange` (src/common/src/kpi.rs); `transform_coefficient` is
`(a, b)` of the line `y = a*x + b`. -/
structure IndexTransformRange : Type where
  rank_range : ℚ × ℚ
  source_range : ℚ × ℚ
  transform_range : ℚ × ℚ
  transform_coefficient : ℚ × ℚ
  player_count : Int
  deriving DecidableEq, Repr

/-- `struct KPIConfig` (src/common/src/kpi.rs); `character_component_weight` is not read
by the three generators and is omitted. -/
structure KPIConfig : Type where
  character_weight_table : List (CharacterKPIType × List (String × ℚ))
  priority_table : List (String × ℚ)
  resource_weight_table : List (String × ℚ)
  transform_range : List IndexTransformRangeConfig
  deriving DecidableEq, Repr

/-- The Rust float range pattern `0.0..FLOAT_EPSILON` used in every ratio guard of
`MissionKPICachedInfo::generate`: it matches exactly when `0.0 ≤ x < 1e-3`. -/
def epsilonGuard (x : ℚ) : Prop := 0 ≤ x ∧ x < FLOAT_EPSILON

instance (x : ℚ) : Decidable (epsilonGuard x) := by
  unfold epsilonGuard
  infer_instance

/-- The per-player body of the player loop of `MissionKPICachedInfo::generate`
(src/backend/src/cache/mission.rs lines 799–1034): the nine `PlayerRawKPIData` records,
in the source's insertion order into the fresh per-player `HashMap`. -/
def playerRawKPIDataFor (mission_info : MissionCachedInfo) (kpi_config : KPIConfig)
    (damage_map kill_map resource_map : List (Int × List (String × ℚ)))
    (total_damage_map total_kill_map total_resource_map
      total_weighted_resource_map : List (String × ℚ))
    (total_revive_count total_death_count total_supply_count : ℚ)
    (character_weight_table : List (String × ℚ)) (player_info : PlayerInfo) :
    List (KPIComponent × PlayerRawKPIData) :=
  let pid := player_info.player_id
  -- Kill
  let source_kill := valuesSum ((lookupA kill_map pid).getD [])
  let weighted_kill :=
    valuesSum (apply_weight_table ((lookupA kill_map pid).getD []) character_weight_table)
  let mission_total_weighted_kill :=
    valuesSum (apply_weight_table total_kill_map character_weight_table)
  -- Damage
  let source_damage := valuesSum ((lookupA damage_map pid).getD [])
  let weighted_damage :=
    valuesSum (apply_weight_table ((lookupA damage_map pid).getD []) character_weight_table)
  let mission_total_weighted_damage :=
    valuesSum (apply_weight_table total_damage_map character_weight_table)
  -- Priority
  let priority_damage :=
    valuesSum (apply_weight_table ((lookupA damage_map pid).getD []) kpi_config.priority_table)
  let mission_total_priority_damage :=
    valuesSum (apply_weight_table total_damage_map kpi_config.priority_table)
  -- Revive / Death
  let player_revive_count : ℚ := (player_info.revive_num : ℚ)
  let player_death_count : ℚ := (player_info.death_num : ℚ)
  -- FriendlyFire
  let player_friendly_fire :=
    ((((lookupA mission_info.damage_info pid).getD []).filter
        (fun kv => kv.2.taker_type == 1 && kv.2.taker_id != pid)).map
      (fun kv => kv.2.total_amount)).sum
  let player_overall_damage := source_damage + player_friendly_fire
  let player_ff_index :=
    if epsilonGuard player_overall_damage then 1
    else friendly_fire_index (player_friendly_fire / player_overall_damage)
  -- Nitra
  let player_nitra := (lookupA ((lookupA resource_map pid).getD []) NITRA_GAME_ID).getD 0
  let total_nitra := (lookupA total_resource_map NITRA_GAME_ID).getD 0
  -- Minerals
  let player_source_minerals := valuesSum ((lookupA resource_map pid).getD [])
  let player_weighted_minerals :=
    valuesSum (apply_weight_table ((lookupA resource_map pid).getD [])
      kpi_config.resource_weight_table)
  let total_weighted_minerals := valuesSum total_weighted_resource_map
  -- Supply
  let player_supply_count : ℚ := (((lookupA mission_info.supply_info pid).getD []).length : ℚ)
  [(KPIComponent.Kill,
    { source_value := source_kill, weighted_value := weighted_kill,
      mission_total_weighted_value := mission_total_weighted_kill,
      raw_index := if epsilonGuard mission_total_weighted_kill then 0
        else weighted_kill / mission_total_weighted_kill }),
   (KPIComponent.Damage,
    { source_value := source_damage, weighted_value := weighted_damage,
      mission_total_weighted_value := mission_total_weighted_damage,
      raw_index := if epsilonGuard mission_total_weighted_damage then 0
        else weighted_damage / mission_total_weighted_damage }),
   (KPIComponent.Priority,
    { source_value := source_damage, weighted_value := priority_damage,
      mission_total_weighted_value := mission_total_priority_damage,
      raw_index := if epsilonGuard mission_total_priority_damage then 0
        else priority_damage / mission_total_priority_damage }),
   (KPIComponent.Revive,
    { source_value := player_revive_count, weighted_value := player_revive_count,
      mission_total_weighted_value := total_revive_count,
      raw_index := if epsilonGuard total_revive_count then 1
        else player_revive_count / total_revive_count }),
   (KPIComponent.Death,
    { source_value := player_death_count, weighted_value := player_death_count,
      mission_total_weighted_value := total_death_count,
      raw_index := if epsilonGuard total_death_count then 0
        else -player_death_count / total_death_count }),
   (KPIComponent.FriendlyFire,
    { source_value := player_friendly_fire, weighted_value := player_ff_index,
      mission_total_weighted_value := 0,
      raw_index := player_ff_index }),
   (KPIComponent.Nitra,
    { source_value := player_nitra, weighted_value := player_nitra,
      mission_total_weighted_value := total_nitra,
      raw_index := if epsilonGuard total_nitra then 0 else player_nitra / total_nitra }),
   (KPIComponent.Minerals,
    { source_value := player_source_minerals, weighted_value := player_weighted_minerals,
      mission_total_weighted_value := total_weighted_minerals,
      raw_index := if epsilonGuard total_weighted_minerals then 0
        else player_weighted_minerals / total_weighted_minerals }),
   (KPIComponent.Supply,
    { source_value := player_supply_count, weighted_value := player_supply_count,
      mission_total_weighted_value := total_supply_count,
      raw_index := if epsilonGuard total_supply_count then 0
        else -player_supply_count / total_supply_count })]

/-- `impl TryFrom<usize> for KPIComponent`; the source first casts the `i16` with
`as usize`, so every negative value wraps out of `0..=8` and fails the conversion. -/
def kpiComponentFromIndex (n : Int) : Option KPIComponent :=
  if n = 0 then some KPIComponent.Kill
  else if n = 1 then some KPIComponent.Damage
  else if n = 2 then some KPIComponent.Priority
  else if n = 3 then some KPIComponent.Revive
  else if n = 4 then some KPIComponent.Death
  else if n = 5 then some KPIComponent.FriendlyFire
  else if n = 6 then some KPIComponent.Nitra
  else if n = 7 then some KPIComponent.Supply
  else if n = 8 then some KPIComponent.Minerals
  else none

/-- One iteration of the manual score-adjustment merge loop
(src/backend/src/cache/mission.rs lines 1039–1059).  A malformed
`target_kpi_component` falls back to `KPIComponent::Kill` (after an error log). -/
def mergeAssignedRow (acc : List (Int × PlayerAssignedKPIInfo)) (row : AssignedKPI) :
    List (Int × PlayerAssignedKPIInfo) :=
  upsertWith acc row.player_id
    { by_component := [], overall := none, note := row.note.getD "" }
    (fun entry =>
      let entry1 :=
        if row.kpi_component_delta_value ≠ 0 then
          { entry with by_component := (insertOv entry.by_component
              ((kpiComponentFromIndex row.target_kpi_component).getD KPIComponent.Kill)
              row.kpi_component_delta_value) }
        else entry
      if row.total_delta_value ≠ 0 then { entry1 with overall := some row.total_delta_value }
      else entry1)

/-- `struct MissionKPICachedInfo`. -/
structure MissionKPICachedInfo : Type where
  mission_id : Int
  damage_map : List (Int × List (String × ℚ))
  kill_map : List (Int × List (String × ℚ))
  resource_map : List (Int × List (String × ℚ))
  total_damage_map : List (String × ℚ)
  total_kill_map : List (String × ℚ)
  total_resource_map : List (String × ℚ)
  player_id_to_kpi_character : List (Int × CharacterKPIType)
  raw_kpi_data : List (Int × List (KPIComponent × PlayerRawKPIData))
  assigned_kpi_info : List (Int × PlayerAssignedKPIInfo)
  deriving DecidableEq, Repr

/-- One iteration of the player loop of `MissionKPICachedInfo::generate`: resolve the
player's name, character and KPI role (`unwrap`s modelled as `none`), pick the role's
weight table (`map_or(HashMap::new(), clone)`), and insert the player's role and raw
KPI records. -/
def kpiPlayerStep (mission_info : MissionCachedInfo) (kpi_config : KPIConfig)
    (damage_map kill_map resource_map : List (Int × List (String × ℚ)))
    (total_damage_map total_kill_map total_resource_map
      total_weighted_resource_map : List (String × ℚ))
    (total_revive_count total_death_count total_supply_count : ℚ)
    (character_id_to_game_id player_id_to_name : List (Int × String))
    (scout_special_player_set : List String)
    (acc : List (Int × CharacterKPIType) ×
           List (Int × List (KPIComponent × PlayerRawKPIData)))
    (player_info : PlayerInfo) :
    Option (List (Int × CharacterKPIType) ×
            List (Int × List (KPIComponent × PlayerRawKPIData))) :=
  match lookupA player_id_to_name player_info.player_id,
        lookupA character_id_to_game_id player_info.character_id with
  | some player_name, some player_character_game_id =>
    match CharacterKPIType.from_player player_character_game_id player_name
        scout_special_player_set with
    | none => none
    | some player_character_kpi_type =>
      let character_weight_table :=
        (lookupA kpi_config.character_weight_table player_character_kpi_type).getD []
      some (insertOv acc.1 player_info.player_id player_character_kpi_type,
            insertOv acc.2 player_info.player_id
              (playerRawKPIDataFor mission_info kpi_config damage_map kill_map
                resource_map total_damage_map total_kill_map total_resource_map
                total_weighted_resource_map total_revive_count total_death_count
                total_supply_count character_weight_table player_info))
  | _, _ => none

/-- `MissionKPICachedInfo::generate`. -/
def MissionKPICachedInfo.generate (mission_info : MissionCachedInfo)
    (mission_assigned_kpi_info : List AssignedKPI)
    (character_id_to_game_id player_id_to_name : List (Int × String))
    (scout_special_player_set : List String) (kpi_config : KPIConfig) :
    Option MissionKPICachedInfo :=
  let damage_map := map_inner_value mission_info.damage_info
    (fun damage_pack => if damage_pack.taker_type = 1 then none
      else some damage_pack.total_amount)
  let kill_map := map_inner_value mission_info.kill_info
    (fun kill_pack => some (kill_pack.total_amount : ℚ))
  let resource_map := map_inner_value mission_info.resource_info some
  let total_damage_map := MissionCachedInfo.combine_damage_info mission_info.damage_info
  let total_kill_map := MissionCachedInfo.combine_kill_info mission_info.kill_info
  let total_resource_map := MissionCachedInfo.combine_resource_info mission_info.resource_info
  let total_weighted_resource_map :=
    apply_weight_table total_resource_map kpi_config.resource_weight_table
  let total_revive_count : ℚ := ((mission_info.player_info.map PlayerInfo.revive_num).sum : ℚ)
  let total_death_count : ℚ := ((mission_info.player_info.map PlayerInfo.death_num).sum : ℚ)
  let total_supply_count : ℚ :=
    (((mission_info.supply_info.map (fun kv => (kv.2.length : Int))).sum : Int) : ℚ)
  match mission_info.player_info.foldlM
      (kpiPlayerStep mission_info kpi_config damage_map kill_map resource_map
        total_damage_map total_kill_map total_resource_map total_weighted_resource_map
        total_revive_count total_death_count total_supply_count character_id_to_game_id
        player_id_to_name scout_special_player_set)
      (([] : List (Int × CharacterKPIType)),
       ([] : List (Int × List (KPIComponent × PlayerRawKPIData)))) with
  | none => none
  | some (player_id_to_kpi_character, raw_kpi_data) =>
    some { mission_id := mission_info.mission_info.id,
           damage_map := damage_map, kill_map := kill_map, resource_map := resource_map,
           total_damage_map := total_damage_map, total_kill_map := total_kill_map,
           total_resource_map := total_resource_map,
           player_id_to_kpi_character := player_id_to_kpi_character,
           raw_kpi_data := raw_kpi_data,
           assigned_kpi_info := mission_assigned_kpi_info.foldl mergeAssignedRow [] }

/-! ## Global Correction Engine (src/src/cache/kpi.rs) -/
/-- `struct CorrectionFactorInfo`. -/
structure CorrectionFactorInfo : Type where
  player_index : ℚ
  value : ℚ
  correction_factor : ℚ
  deriving DecidableEq, Repr

/-- `struct CharacterMissionInfo`. -/
structure CharacterMissionInfo : Type where
  player_index : ℚ
  damage : ℚ
  priority : ℚ
  kill : ℚ
  nitra : ℚ
  resource : ℚ
  deriving DecidableEq, Repr

/-- `struct CachedGlobalKPIState`. -/
structure CachedGlobalKPIState : Type where
  character_correction_factor :
    List (CharacterKPIType × List (KPIComponent × CorrectionFactorInfo))
  standard_correction_sum : List (KPIComponent × ℚ)
  transform_range : List (CharacterKPIType × List (KPIComponent × List IndexTransformRange))
  deriving DecidableEq, Repr

/-- `Iterator::min_by(partial_cmp)…unwrap_or_default()`: minimum of the list, `0`
when empty (`partial_cmp.unwrap()` cannot fail on `ℚ`). -/
def listMinD (l : List ℚ) : ℚ :=
  match l with
  | [] => 0
  | x :: xs => xs.foldl min x

/-- The per-player body of the first mission loop of `CachedGlobalKPIState::generate`
(src/src/cache/kpi.rs lines 85–151): classify the player's role and collect its
`CharacterMissionInfo`. -/
def characterMissionInfoFor (mission : MissionCachedInfo) (kpi_config : KPIConfig)
    (player_id_to_name character_id_to_game_id : List (Int × String))
    (scout_special_player_set : List String) (player_info : PlayerInfo) :
    Option (CharacterKPIType × CharacterMissionInfo) :=
  match lookupA mission.player_index player_info.player_id,
        lookupA player_id_to_name player_info.player_id,
        lookupA character_id_to_game_id player_info.character_id with
  | some player_index, some player_name, some player_character_game_id =>
    match CharacterKPIType.from_player player_character_game_id player_name
        scout_special_player_set with
    | none => none
    | some player_character_kpi_type =>
      let player_kill :=
        (((lookupA mission.kill_info player_info.player_id).getD []).map
          (fun kv => (kv.2.total_amount : ℚ))).sum
      let player_damage_map :=
        (((lookupA mission.damage_info player_info.player_id).getD []).filter
          (fun kv => kv.2.taker_type != 1)).map (fun kv => (kv.1, kv.2.total_amount))
      let player_priority_damage :=
        valuesSum (apply_weight_table player_damage_map kpi_config.priority_table)
      let player_damage := valuesSum player_damage_map
      let player_nitra :=
        ((((lookupA mission.resource_info player_info.player_id).getD []).filter
          (fun kv => kv.1 == NITRA_GAME_ID)).map Prod.snd).sum
      let player_resource :=
        (((lookupA mission.resource_info player_info.player_id).getD []).map Prod.snd).sum
      some (player_character_kpi_type,
        { player_index := player_index, damage := player_damage,
          priority := player_priority_damage, kill := player_kill,
          nitra := player_nitra, resource := player_resource })
  | _, _, _ => none

/-- Stage A per-role averages (src/src/cache/kpi.rs lines 154–218): the player-index-
weighted averages of the five correctable components, with `correction_factor`
initialised to `0.0`, inserted in the source's order. -/
def correctionInfoOf (mission_info_list : List CharacterMissionInfo) :
    List (KPIComponent × CorrectionFactorInfo) :=
  let player_index := (mission_info_list.map CharacterMissionInfo.player_index).sum
  let average_damage := (mission_info_list.map CharacterMissionInfo.damage).sum / player_index
  let average_priority_damage :=
    (mission_info_list.map CharacterMissionInfo.priority).sum / player_index
  let average_kill := (mission_info_list.map CharacterMissionInfo.kill).sum / player_index
  let average_nitra := (mission_info_list.map CharacterMissionInfo.nitra).sum / player_index
  let average_resource :=
    (mission_info_list.map CharacterMissionInfo.resource).sum / player_index
  [(KPIComponent.Damage,
    { player_index := player_index, value := average_damage, correction_factor := 0 }),
   (KPIComponent.Priority,
    { player_index := player_index, value := average_priority_damage,
      correction_factor := 0 }),
   (KPIComponent.Kill,
    { player_index := player_index, value := average_kill, correction_factor := 0 }),
   (KPIComponent.Nitra,
    { player_index := player_index, value := average_nitra, correction_factor := 0 }),
   (KPIComponent.Minerals,
    { player_index := player_index, value := average_resource, correction_factor := 0 })]

/-- The `min_damage` / `min_priority` / … computations (src/src/cache/kpi.rs lines
220–248): minimum of one component's `value` over all roles present; the
`get(&comp).unwrap()` is a panic when a role map lacks the component. -/
def minCorrectionValue
    (character_correction_factor :
      List (CharacterKPIType × List (KPIComponent × CorrectionFactorInfo)))
    (comp : KPIComponent) : Option ℚ :=
  (mapO (fun kv => lookupA kv.2 comp) character_correction_factor).map
    (fun infos => listMinD (infos.map CorrectionFactorInfo.value))

/-- The `values_mut` factor-update loop (src/src/cache/kpi.rs lines 250–265):
`factor = value / min_value` for each of the five correctable components.  The source's
`get_mut(&comp).unwrap()` always succeeds because `correctionInfoOf` inserted exactly
these five keys; the update is therefore modelled entry-wise. -/
def setCorrectionFactors (correction_info : List (KPIComponent × CorrectionFactorInfo))
    (min_damage min_priority min_kill min_nitra min_minerals : ℚ) :
    List (KPIComponent × CorrectionFactorInfo) :=
  correction_info.map (fun kv =>
    match kv.1 with
    | KPIComponent.Damage =>
      (kv.1, { kv.2 with correction_factor := kv.2.value / min_damage })
    | KPIComponent.Priority =>
      (kv.1, { kv.2 with correction_factor := kv.2.value / min_priority })
    | KPIComponent.Kill =>
      (kv.1, { kv.2 with correction_factor := kv.2.value / min_kill })
    | KPIComponent.Nitra =>
      (kv.1, { kv.2 with correction_factor := kv.2.value / min_nitra })
    | KPIComponent.Minerals =>
      (kv.1, { kv.2 with correction_factor := kv.2.value / min_minerals })
    | _ => kv)

/-- The per-entry effect of the `values_mut` factor-update loop of
`CachedGlobalKPIState::generate`: only the five correctable components are updated,
each divided by its own minimum; the value and player index are untouched. -/
def updFactor (min_damage min_priority min_kill min_nitra min_minerals : ℚ)
    (comp : KPIComponent) (info : CorrectionFactorInfo) : CorrectionFactorInfo :=
  match comp with
  | KPIComponent.Damage => { info with correction_factor := info.value / min_damage }
  | KPIComponent.Priority => { info with correction_factor := info.value / min_priority }
  | KPIComponent.Kill => { info with correction_factor := info.value / min_kill }
  | KPIComponent.Nitra => { info with correction_factor := info.value / min_nitra }
  | KPIComponent.Minerals => { info with correction_factor := info.value / min_minerals }
  | _ => info

/-- The four standard roles (src/src/cache/kpi.rs lines 267–272). -/
def standardCharacters : List CharacterKPIType :=
  [CharacterKPIType.Driller, CharacterKPIType.Engineer,
   CharacterKPIType.Gunner, CharacterKPIType.Scout]

/-- `standard_correction_sum` (src/src/cache/kpi.rs lines 274–290). -/
def standardCorrectionSumOf
    (character_correction_factor :
      List (CharacterKPIType × List (KPIComponent × CorrectionFactorInfo))) :
    Option (List (KPIComponent × ℚ)) :=
  CORRECTION_ITEMS.foldlM (fun acc item =>
    (mapO (fun character =>
      match lookupA character_correction_factor character with
      | none => none
      | some ci => (lookupA ci item).map CorrectionFactorInfo.correction_factor)
      standardCharacters).map
      (fun factors : List ℚ => insertOv acc item factors.sum)) []

/-- `mission_correction_sum` (src/src/cache/kpi.rs lines 300–318): per mission, sum the
correction factors of the roles of all players present. -/
def missionCorrectionSum
    (character_correction_factor :
      List (CharacterKPIType × List (KPIComponent × CorrectionFactorInfo)))
    (player_id_to_name character_id_to_game_id : List (Int × String))
    (scout_special_player_set : List String) (mission : MissionCachedInfo) :
    Option (List (KPIComponent × ℚ)) :=
  mission.player_info.foldlM (fun acc player_info =>
    match lookupA character_id_to_game_id player_info.character_id,
          lookupA player_id_to_name player_info.player_id with
    | some char_gid, some player_name =>
      match CharacterKPIType.from_player char_gid player_name scout_special_player_set with
      | none => none
      | some ckt =>
        match lookupA character_correction_factor ckt with
        | none => none
        | some correction_data =>
          some (correction_data.foldl
            (fun acc2 kv => upsertWith acc2 kv.1 0 (fun v => v + kv.2.correction_factor))
            acc)
    | _, _ => none) []

/-- Accumulator of the second mission loop: role → player id → component →
`(player_index, corrected_index)` list. -/
abbrev CharPlayerCompAcc :=
  List (CharacterKPIType × List (Int × List (KPIComponent × List (ℚ × ℚ))))

/-- The second mission loop of `CachedGlobalKPIState::generate` (src/src/cache/kpi.rs
lines 299–356): per player and correctable component, push
`(player_index, corrected_index)` for players with presence index ≥ 0.5. -/
def stageBMission
    (character_correction_factor :
      List (CharacterKPIType × List (KPIComponent × CorrectionFactorInfo)))
    (standard_correction_sum : List (KPIComponent × ℚ))
    (cached_mission_kpi_set : List (Int × MissionKPICachedInfo))
    (player_id_to_name character_id_to_game_id : List (Int × String))
    (scout_special_player_set : List String) (acc0 : CharPlayerCompAcc)
    (mission : MissionCachedInfo) : Option CharPlayerCompAcc :=
  match missionCorrectionSum character_correction_factor player_id_to_name
      character_id_to_game_id scout_special_player_set mission with
  | none => none
  | some mission_correction_sum =>
    mission.player_info.foldlM (fun acc player_info =>
      match lookupA mission.player_index player_info.player_id,
            lookupA character_id_to_game_id player_info.character_id,
            lookupA player_id_to_name player_info.player_id with
      | some player_index, some char_gid, some player_name =>
        match CharacterKPIType.from_player char_gid player_name
            scout_special_player_set with
        | none => none
        | some ckt =>
          match lookupA cached_mission_kpi_set mission.mission_info.id with
          | none => none
          | some kpi_info =>
            match lookupA kpi_info.raw_kpi_data player_info.player_id with
            | none => none
            | some player_raw_kpi_data =>
              CORRECTION_ITEMS.foldlM (fun acc2 kpi_component =>
                match lookupA player_raw_kpi_data kpi_component,
                      lookupA mission_correction_sum kpi_component,
                      lookupA standard_correction_sum kpi_component with
                | some raw_data, some mcs, some scs =>
                  let corrected_index := raw_data.raw_index * mcs / scs
                  if player_index < KPI_CALCULATION_PLAYER_INDEX then some acc2
                  else
                    some (upsertWith acc2 ckt []
                      (fun pm => upsertWith pm player_info.player_id []
                        (fun cm => upsertWith cm kpi_component []
                          (fun l => l ++ [(player_index, corrected_index)]))))
                | _, _, _ => none) acc
      | _, _, _ => none) acc0

/-- `source_distribution` accumulation (src/src/cache/kpi.rs lines 358–384): one
player-index-weighted average corrected index per (role, player, component). -/
def sourceDistributionOf (m : CharPlayerCompAcc) :
    List (CharacterKPIType × List (KPIComponent × List ℚ)) :=
  m.foldl (fun acc ckv =>
    ckv.2.foldl (fun acc pkv =>
      pkv.2.foldl (fun acc compkv =>
        let player_index_sum := (compkv.2.map Prod.fst).sum
        let player_index_weighted_sum := (compkv.2.map (fun pc => pc.1 * pc.2)).sum
        upsertWith acc ckv.1 []
          (fun dm => upsertWith dm compkv.1 []
            (fun l => l ++ [player_index_weighted_sum / player_index_sum]))) acc) acc) []

/-- Ordered insertion, the auxiliary step of `sortQ`. -/
def insertSorted (x : ℚ) : List ℚ → List ℚ
  | [] => [x]
  | y :: ys => if x ≤ y then x :: y :: ys else y :: insertSorted x ys

/-- `sort_unstable_by(partial_cmp)` on a `Vec<f64>` (src/src/cache/kpi.rs lines
386–390): ascending sort, modelled as insertion sort (the `unwrap` of `partial_cmp`
cannot fail on `ℚ`, and any ascending sort of a list of rationals produces the same
value list). -/
def sortQ (l : List ℚ) : List ℚ := l.foldr insertSorted []

/-- `(index_list.len() as f64 * rank) as usize`: truncation toward zero with saturation
at `0`, i.e. `⌊q⌋` clamped to `ℕ` (the product is nonnegative for the nonnegative rank
fractions, where truncation and floor agree). -/
def f64AsUsize (q : ℚ) : Nat := (⌊q⌋).toNat

/-- One percentile transform segment (src/src/cache/kpi.rs lines 402–436): select
`source_min`/`source_max` from the sorted list (`none` models the out-of-bounds panic
of `index_list[source_list_begin_index]`), then derive the line coefficients.  In the
degenerate `source_max - source_min == 0.0` branch the source computes
`a = (transform_max + transform_min) / (2.0 * source_min)`, `b = 0.0`. -/
def mkTransformSegment (index_list : List ℚ) (range_config : IndexTransformRangeConfig) :
    Option IndexTransformRange :=
  let len := index_list.length
  let source_list_begin_index := f64AsUsize ((len : ℚ) * range_config.rank_range.1)
  let source_list_end_index := f64AsUsize ((len : ℚ) * range_config.rank_range.2)
  match (if source_list_begin_index = 0 then some (0 : ℚ)
         else index_list[source_list_begin_index]?) with
  | none => none
  | some source_min =>
    match (if source_list_end_index < len then index_list[source_list_end_index]?
           else some (1 : ℚ)) with
    | none => none
    | some source_max =>
      let transform_min := range_config.transform_range.1
      let transform_max := range_config.transform_range.2
      let ab :=
        if source_max - source_min = 0 then
          ((transform_max + transform_min) / (2 * source_min), (0 : ℚ))
        else
          let a := (transform_max - transform_min) / (source_max - source_min)
          (a, transform_min - a * source_min)
      some { rank_range := range_config.rank_range,
             source_range := (source_min, source_max),
             transform_range := range_config.transform_range,
             transform_coefficient := ab,
             player_count := (source_list_end_index : Int) - (source_list_begin_index : Int) }

/-- The divisor used by the coefficient computation of `mkTransformSegment`:
`2.0 * source_min` in the degenerate branch, `source_max - source_min` otherwise. -/
def transformSegmentDivisor (source_min source_max : ℚ) : ℚ :=
  if source_max - source_min = 0 then 2 * source_min else source_max - source_min

/-- The `transform_range` construction (src/src/cache/kpi.rs lines 392–446). -/
def stageCTransformRange
    (source_distribution : List (CharacterKPIType × List (KPIComponent × List ℚ)))
    (config_transform_range : List IndexTransformRangeConfig) :
    Option (List (CharacterKPIType × List (KPIComponent × List IndexTransformRange))) :=
  source_distribution.foldlM (fun acc ckv =>
    TRANSFORM_KPI_COMPONENTS.foldlM (fun acc2 kpi_component =>
      match lookupA ckv.2 kpi_component with
      | none => none
      | some index_list =>
        config_transform_range.foldlM (fun acc3 range_config =>
          (mkTransformSegment index_list range_config).map (fun seg =>
            upsertWith acc3 ckv.1 []
              (fun m => upsertWith m kpi_component [] (fun l => l ++ [seg])))) acc2)
      acc) []

/-- `CachedGlobalKPIState::generate`. -/
def CachedGlobalKPIState.generate (cached_mission_list : List MissionCachedInfo)
    (cached_mission_kpi_list : List MissionKPICachedInfo)
    (invalid_mission_id_list : List Int) (kpi_config : KPIConfig)
    (player_id_to_name character_id_to_game_id : List (Int × String))
    (scout_special_player_set : List String) : Option CachedGlobalKPIState :=
  let cached_mission_kpi_set := cached_mission_kpi_list.foldl
    (fun acc item => insertOv acc item.mission_id item) []
  let valid_mission_list := cached_mission_list.filter
    (fun x => !(invalid_mission_id_list.contains x.mission_info.id))
  if valid_mission_list.isEmpty then
    some { character_correction_factor := [], standard_correction_sum := [],
           transform_range := [] }
  else
    match valid_mission_list.foldlM (fun acc mission =>
        mission.player_info.foldlM (fun acc2 player_info =>
          (characterMissionInfoFor mission kpi_config player_id_to_name
            character_id_to_game_id scout_special_player_set player_info).map
            (fun ci => upsertWith acc2 ci.1 [] (fun l => l ++ [ci.2]))) acc) [] with
    | none => none
    | some character_to_mission_info_list =>
      let ccf0 := character_to_mission_info_list.map
        (fun kv => (kv.1, correctionInfoOf kv.2))
      match minCorrectionValue ccf0 KPIComponent.Damage,
            minCorrectionValue ccf0 KPIComponent.Priority,
            minCorrectionValue ccf0 KPIComponent.Kill,
            minCorrectionValue ccf0 KPIComponent.Nitra,
            minCorrectionValue ccf0 KPIComponent.Minerals with
      | some min_damage, some min_priority, some min_kill, some min_nitra,
        some min_minerals =>
        let character_correction_factor := ccf0.map (fun kv =>
          (kv.1, setCorrectionFactors kv.2 min_damage min_priority min_kill min_nitra
            min_minerals))
        match standardCorrectionSumOf character_correction_factor with
        | none => none
        | some standard_correction_sum =>
          match valid_mission_list.foldlM
              (stageBMission character_correction_factor standard_correction_sum
                cached_mission_kpi_set player_id_to_name character_id_to_game_id
                scout_special_player_set) [] with
          | none => none
          | some char_player_comp_acc =>
            let source_distribution :=
              (sourceDistributionOf char_player_comp_acc).map
                (fun kv => (kv.1, kv.2.map (fun iv => (iv.1, sortQ iv.2))))
            match stageCTransformRange source_distribution kpi_config.transform_range with
            | none => none
            | some transform_range =>
              some { character_correction_factor := character_correction_factor,
                     standard_correction_sum := standard_correction_sum,
                     transform_range := transform_range }
      | _, _, _, _, _ => none

/-! ## Serialization model (`cache_write_redis`, src/backend/src/cache/mission.rs)

`cache_write_redis` serializes the snapshot with `rmp_serde::to_vec` (msgpack).  Serde
serializes a `HashMap` by emitting its entries in the map's iteration order, which for
`std::collections::HashMap` depends on the per-instance random hasher state.  The model
below keeps the msgpack atoms of one map field abstract as tokens: a token list stands
for the byte stream, and two distinct token sequences yield distinct msgpack byte
sequences for these shapes (each atom has an unambiguous byte encoding). -/
/-- One msgpack atom of the serialized snapshot. -/
inductive SerToken : Type
  | str (s : String)
  | num (q : ℚ)
  | int (n : Int)
  deriving DecidableEq, Repr

/-- Serialization of an inner `HashMap<String, f64>`: key/value atoms in iteration
order. -/
def serializeQMap (entries : List (String × ℚ)) : List SerToken :=
  entries.flatMap (fun kv => [SerToken.str kv.1, SerToken.num kv.2])

/-- Serialization of the `resource_info: HashMap<i16, HashMap<String, f64>>` field of a
`MissionCachedInfo`: outer entries in iteration order. -/
def serializeResourceInfo (entries : List (Int × List (String × ℚ))) : List SerToken :=
  entries.flatMap (fun kv => SerToken.int kv.1 :: serializeQMap kv.2)

/-- The first token is an integer key or the stream has ended: the shape of every
suffix of `serializeResourceInfo` that starts at an outer-entry boundary. -/
def headIntOrNil : List SerToken → Prop
  | [] => True
  | SerToken.int _ :: _ => True
  | _ => False

/-! ## Claim C10 -/
/-- Raw rows for C10: a mission with two players, each banking one nitra deposit. -/
def c10RawInfo : MissionRawInfo :=
  { mission := { id := 1, mission_time := 600 },
    player_info_list :=
      [{ player_id := 1, character_id := 10, present_time := 600,
         revive_num := 0, death_num := 0 },
       { player_id := 2, character_id := 10, present_time := 600,
         revive_num := 0, death_num := 0 }],
    raw_kill_info_list := [],
    raw_damage_info_list := [],
    raw_resource_info_list :=
      [{ player_id := 1, resource_id := 70, amount := 5 },
       { player_id := 2, resource_id := 70, amount := 7 }],
    raw_supply_info_list := [] }

/-- Id mapping for C10. -/
def c10IDMapping : IDMapping :=
  { id_to_player_name := [(1, "P1"), (2, "P2")],
    id_to_entity_game_id := [], id_to_weapon_game_id := [],
    id_to_resource_game_id := [(70, "RES_VEIN_Nitra")] }

/-! ## Percentile transform segments: shape invariant (claims C5, C6) -/
/-- The relation between a stored segment's coefficients and its ranges, read off the
`match source_max - source_min` expression of `CachedGlobalKPIState::generate`. -/
def SegWellFormed (seg : IndexTransformRange) : Prop :=
  seg.transform_coefficient =
    if seg.source_range.2 - seg.source_range.1 = 0 then
      ((seg.transform_range.2 + seg.transform_range.1) / (2 * seg.source_range.1), 0)
    else
      ((seg.transform_range.2 - seg.transform_range.1) /
          (seg.source_range.2 - seg.source_range.1),
       seg.transform_range.1 -
         (seg.transform_range.2 - seg.transform_range.1) /
             (seg.source_range.2 - seg.source_range.1) * seg.source_range.1)

/-- All stored segments of a transform-range map satisfy `P`. -/
def AllSegs (P : IndexTransformRange → Prop)
    (tr : List (CharacterKPIType × List (KPIComponent × List IndexTransformRange))) :
    Prop :=
  ∀ rkv ∈ tr, ∀ ckv ∈ rkv.2, ∀ seg ∈ ckv.2, P seg

/-! ## Concrete inputs exercising the full pipeline

One mission with five players covering the four standard roles (two Drillers, so that
one role has a two-element percentile distribution).  Every player kills the entity
`"E_A"` twice and deals it 10 damage; player 1 banks no nitra while the others bank
8/4/4/4.  Weight tables are empty (weight 1 everywhere) and the percentile config holds
the two rank ranges `[0, 2/5)` and `[1/2, 1/2)` with target range `(0, 10)`. -/

/-- Player roster of the concrete mission. -/
def gPlayerList : List PlayerInfo :=
  [{ player_id := 1, character_id := 10, present_time := 600, revive_num := 0,
     death_num := 0 },
   { player_id := 2, character_id := 10, present_time := 600, revive_num := 0,
     death_num := 0 },
   { player_id := 3, character_id := 11, present_time := 600, revive_num := 0,
     death_num := 0 },
   { player_id := 4, character_id := 12, present_time := 600, revive_num := 0,
     death_num := 0 },
   { player_id := 5, character_id := 13, present_time := 600, revive_num := 0,
     death_num := 0 }]

/-- One player's kill map: twice the entity `"E_A"`. -/
def gKill (p : Int) : Int × List (String × KillPack) :=
  (p, [("E_A", { taker_id := 50, taker_name := "E_A", total_amount := 2 })])

/-- One player's damage map: 10 damage to the entity `"E_A"`. -/
def gDmg (p : Int) : Int × List (String × DamagePack) :=
  (p, [("E_A", { taker_id := 50, taker_type := 2, weapon_id := 60, total_amount := 10 })])

/-- The concrete `MissionCachedInfo`. -/
def gMission : MissionCachedInfo :=
  { mission_info := { id := 1, mission_time := 600 },
    player_info := gPlayerList,
    player_index := [(1, 1), (2, 1), (3, 1), (4, 1), (5, 1)],
    kill_info := [gKill 1, gKill 2, gKill 3, gKill 4, gKill 5],
    damage_info := [gDmg 1, gDmg 2, gDmg 3, gDmg 4, gDmg 5],
    weapon_damage_info := [],
    resource_info :=
      [(2, [("RES_VEIN_Nitra", 8)]), (3, [("RES_VEIN_Nitra", 4)]),
       (4, [("RES_VEIN_Nitra", 4)]), (5, [("RES_VEIN_Nitra", 4)])],
    revive_count := [(1, 0), (2, 0), (3, 0), (4, 0), (5, 0)],
    death_count := [(1, 0), (2, 0), (3, 0), (4, 0), (5, 0)],
    supply_info := [] }

/-- Player-id → name table for the concrete mission. -/
def gP2N : List (Int × String) := [(1, "P1"), (2, "P2"), (3, "P3"), (4, "P4"), (5, "P5")]

/-- Character-id → game-id table for the concrete mission. -/
def gC2G : List (Int × String) :=
  [(10, "DRILLER"), (11, "ENGINEER"), (12, "GUNNER"), (13, "SCOUT")]

/-- KPI configuration with empty weight tables and two percentile ranges. -/
def gConfig : KPIConfig :=
  { character_weight_table := [], priority_table := [], resource_weight_table := [],
    transform_range :=
      [{ rank_range := (0, 2/5), transform_range := (0, 10) },
       { rank_range := (1/2, 1/2), transform_range := (0, 10) }] }

/-- The mission's KPI snapshot list (a singleton: the generation succeeds). -/
def gKpiList : List MissionKPICachedInfo :=
  (MissionKPICachedInfo.generate gMission [] gC2G gP2N [] gConfig).toList

/-- The generated global KPI state for the concrete inputs. -/
def gState : CachedGlobalKPIState :=
  (CachedGlobalKPIState.generate [gMission] gKpiList [] gConfig gP2N gC2G []).getD
    { character_correction_factor := [], standard_correction_sum := [],
      transform_range := [] }

/-- All-zero segment, used as the default of `List.headD`. -/
def segDefault : IndexTransformRange :=
  { rank_range := (0, 0), source_range := (0, 0), transform_range := (0, 0),
    transform_coefficient := (0, 0), player_count := 0 }

/-- The stored per-component segment map of the Engineer role. -/
def gMEng : List (KPIComponent × List IndexTransformRange) :=
  (lookupA gState.transform_range CharacterKPIType.Engineer).getD []

/-- The stored Damage segments of the Engineer role. -/
def gSegsEngDamage : List IndexTransformRange :=
  (lookupA gMEng KPIComponent.Damage).getD []

/-- The first stored Damage segment of the Engineer role (non-degenerate). -/
def gSegEngDamage : IndexTransformRange := gSegsEngDamage.headD segDefault

/-- The stored per-component segment map of the Driller role. -/
def gMDriller : List (KPIComponent × List IndexTransformRange) :=
  (lookupA gState.transform_range CharacterKPIType.Driller).getD []

/-- The stored Nitra segments of the Driller role. -/
def gSegsDrillerNitra : List IndexTransformRange :=
  (lookupA gMDriller KPIComponent.Nitra).getD []

/-- The first stored Driller/Nitra segment: degenerate with `source_min = 0`. -/
def gSegDrillerNitra0 : IndexTransformRange := gSegsDrillerNitra.headD segDefault

/-- The second stored Driller/Nitra segment: degenerate with `source_min = 1/2`. -/
def gSegDrillerNitra1 : IndexTransformRange :=
  (gSegsDrillerNitra.drop 1).headD segDefault

/-! ## Named sub-expressions of the FriendlyFire computation

These name the exact sub-expressions of `playerRawKPIDataFor` (the per-player body of
`MissionKPICachedInfo::generate`), so the claims can speak about them; each is
definitionally equal to the corresponding `let` of the function. -/

/-- The player's friendly-fire damage: damage packs with a player taker other than the
player itself (src/backend/src/cache/mission.rs lines 865–872). -/
def player_friendly_fire_of (mi : MissionCachedInfo) (p : Int) : ℚ :=
  ((((lookupA mi.damage_info p).getD []).filter
      (fun kv => kv.2.taker_type == 1 && kv.2.taker_id != p)).map
    (fun kv => kv.2.total_amount)).sum

/-- The player's `source_damage`: sum of its entries of the (friendly-fire-free)
damage map. -/
def source_damage_of (dm : List (Int × List (String × ℚ))) (p : Int) : ℚ :=
  valuesSum ((lookupA dm p).getD [])

/-- The player's FriendlyFire index (src/backend/src/cache/mission.rs lines 874–879). -/
def ff_index_of (mi : MissionCachedInfo) (dm : List (Int × List (String × ℚ)))
    (p : Int) : ℚ :=
  if epsilonGuard (source_damage_of dm p + player_friendly_fire_of mi p) then 1
  else friendly_fire_index (player_friendly_fire_of mi p /
    (source_damage_of dm p + player_friendly_fire_of mi p))

/-- The `damage_map` computed by `MissionKPICachedInfo::generate` (friendly fire
dropped). -/
def damage_map_of (mi : MissionCachedInfo) : List (Int × List (String × ℚ)) :=
  map_inner_value mi.damage_info
    (fun damage_pack => if damage_pack.taker_type = 1 then none
      else some damage_pack.total_amount)

/-- The player's non-friendly damage total ("own non-friendly damage"). -/
def non_ff_damage_of (mi : MissionCachedInfo) (p : Int) : ℚ :=
  source_damage_of (damage_map_of mi) p

/-- The net effect of the merge loop on one player's recorded overall delta: the last
row with a nonzero `total_delta_value` wins (`entry.overall` is overwritten each
time). -/
def overallAfter (rows : List AssignedKPI) (prev : Option ℚ) : Option ℚ :=
  rows.foldl
    (fun cur r => if r.total_delta_value ≠ 0 then some r.total_delta_value else cur) prev

/-! ## Concrete inputs for claims C4, C7, C8 -/

/-- A two-player mission where player 1's only damage is `0.0005` friendly fire into
player 2: the overall damage denominator is below `FLOAT_EPSILON` while the friendly
damage is nonzero. -/
def c4Mission : MissionCachedInfo :=
  { mission_info := { id := 2, mission_time := 600 },
    player_info :=
      [{ player_id := 1, character_id := 10, present_time := 600, revive_num := 0,
         death_num := 0 },
       { player_id := 2, character_id := 13, present_time := 600, revive_num := 0,
         death_num := 0 }],
    player_index := [(1, 1), (2, 1)],
    kill_info := [],
    damage_info :=
      [(1, [("P2", { taker_id := 2, taker_type := 1, weapon_id := 60,
                     total_amount := 1/2000 })])],
    weapon_damage_info := [], resource_info := [],
    revive_count := [(1, 0), (2, 0)], death_count := [(1, 0), (2, 0)],
    supply_info := [] }

/-- The empty `MissionKPICachedInfo`, used as a `getD` default. -/
def emptyKPIOut : MissionKPICachedInfo :=
  { mission_id := 0, damage_map := [], kill_map := [], resource_map := [],
    total_damage_map := [], total_kill_map := [], total_resource_map := [],
    player_id_to_kpi_character := [], raw_kpi_data := [], assigned_kpi_info := [] }

/-- The KPI snapshot of `c4Mission`. -/
def c4Out : MissionKPICachedInfo :=
  (MissionKPICachedInfo.generate c4Mission [] gC2G gP2N [] gConfig).getD emptyKPIOut

/-- Player 1's component records in `c4Out`. -/
def c4Comps : List (KPIComponent × PlayerRawKPIData) :=
  (lookupA c4Out.raw_kpi_data 1).getD []

/-- Player 1's FriendlyFire record in `c4Out`. -/
def c4FF : PlayerRawKPIData :=
  (lookupA c4Comps KPIComponent.FriendlyFire).getD
    { source_value := 0, weighted_value := 0, mission_total_weighted_value := 0,
      raw_index := 0 }

/-- Two score-adjustment rows for (mission 2, player 1) with nonzero overall deltas 1
then 2. -/
def c7Rows : List AssignedKPI :=
  [{ mission_id := 2, player_id := 1, target_kpi_component := 0,
     kpi_component_delta_value := 0, total_delta_value := 1, note := none },
   { mission_id := 2, player_id := 1, target_kpi_component := 0,
     kpi_component_delta_value := 0, total_delta_value := 2, note := none }]

/-- The KPI snapshot of `c4Mission` with the duplicate overall-delta rows applied. -/
def c7Out : MissionKPICachedInfo :=
  (MissionKPICachedInfo.generate c4Mission c7Rows gC2G gP2N [] gConfig).getD emptyKPIOut

/-- Player 1's merged manual-adjustment record in `c7Out`. -/
def c7Info : PlayerAssignedKPIInfo :=
  (lookupA c7Out.assigned_kpi_info 1).getD
    { by_component := [], overall := none, note := "" }

/-- Raw rows of the spec's end-to-end friendly-fire scenario: two players; player 1
deals 100 damage to the entity `"ENEMY"` and 10 friendly-fire damage to player 2. -/
def c8RawInfo : MissionRawInfo :=
  { mission := { id := 3, mission_time := 600 },
    player_info_list :=
      [{ player_id := 1, character_id := 10, present_time := 600, revive_num := 0,
         death_num := 0 },
       { player_id := 2, character_id := 13, present_time := 600, revive_num := 0,
         death_num := 0 }],
    raw_kill_info_list := [],
    raw_damage_info_list :=
      [{ causer_id := 1, taker_id := 50, weapon_id := 60, causer_type := 1,
         taker_type := 2, damage := 100 },
       { causer_id := 1, taker_id := 2, weapon_id := 60, causer_type := 1,
         taker_type := 1, damage := 10 }],
    raw_resource_info_list := [],
    raw_supply_info_list := [] }

/-- Id mapping for the friendly-fire scenario. -/
def c8IDMapping : IDMapping :=
  { id_to_player_name := [(1, "P1"), (2, "P2")],
    id_to_entity_game_id := [(50, "ENEMY")],
    id_to_weapon_game_id := [(60, "GUN")],
    id_to_resource_game_id := [] }

/-- The empty `MissionCachedInfo`, used as a `getD` default. -/
def emptyMission : MissionCachedInfo :=
  { mission_info := { id := 0, mission_time := 0 }, player_info := [],
    player_index := [], kill_info := [], damage_info := [], weapon_damage_info := [],
    resource_info := [], revive_count := [], death_count := [], supply_info := [] }

/-- The aggregated snapshot of the friendly-fire scenario. -/
def c8Mission : MissionCachedInfo :=
  (MissionCachedInfo.generate c8RawInfo [] [] [] c8IDMapping).getD emptyMission

/-- The KPI snapshot of the friendly-fire scenario. -/
def c8Out : MissionKPICachedInfo :=
  (MissionKPICachedInfo.generate c8Mission [] gC2G gP2N [] gConfig).getD emptyKPIOut

/-- The claim's precondition on the cached mission: every kill, damage and resource
value and every roster revive/death counter is non-negative (supply entries are counts
and are non-negative by construction). -/
def MissionValuesNonneg (mi : MissionCachedInfo) : Prop :=
  (∀ kv ∈ mi.kill_info, ∀ sv ∈ kv.2, 0 ≤ sv.2.total_amount)
  ∧ (∀ kv ∈ mi.damage_info, ∀ sv ∈ kv.2, 0 ≤ sv.2.total_amount)
  ∧ (∀ kv ∈ mi.resource_info, ∀ sv ∈ kv.2, 0 ≤ sv.2)
  ∧ (∀ p ∈ mi.player_info, 0 ≤ p.revive_num ∧ 0 ≤ p.death_num)

instance (mi : MissionCachedInfo) : Decidable (MissionValuesNonneg mi) := by
  unfold MissionValuesNonneg
  infer_instance

/-- Non-negativity of every weight read by the raw KPI calculator: the per-role
character weight tables, the priority table and the resource weight table. -/
def KPIConfigNonneg (cfg : KPIConfig) : Prop :=
  (∀ ct ∈ cfg.character_weight_table, ∀ sv ∈ ct.2, 0 ≤ sv.2)
  ∧ (∀ sv ∈ cfg.priority_table, 0 ≤ sv.2)
  ∧ (∀ sv ∈ cfg.resource_weight_table, 0 ≤ sv.2)

instance (cfg : KPIConfig) : Decidable (KPIConfigNonneg cfg) := by
  unfold KPIConfigNonneg
  infer_instance

/-- The C2 scenario's cached mission: two players (Driller 1, Engineer 2), player 1
killed entity "A" three times and player 2 killed entity "B" four times; all mission
values are non-negative. -/
def c2Mission : MissionCachedInfo :=
  { mission_info := { id := 2, mission_time := 600 },
    player_info :=
      [{ player_id := 1, character_id := 10, present_time := 600,
         revive_num := 0, death_num := 0 },
       { player_id := 2, character_id := 11, present_time := 600,
         revive_num := 0, death_num := 0 }],
    player_index := [(1, 1), (2, 1)],
    kill_info :=
      [(1, [("A", { taker_id := 1, taker_name := "A", total_amount := 3 })]),
       (2, [("B", { taker_id := 2, taker_name := "B", total_amount := 4 })])],
    damage_info := [], weapon_damage_info := [], resource_info := [],
    revive_count := [(1, 0), (2, 0)], death_count := [(1, 0), (2, 0)],
    supply_info := [] }

/-- The C2 scenario's KPI configuration: the Driller weight table gives entity "A" the
weight −1. -/
def c2Config : KPIConfig :=
  { character_weight_table := [(CharacterKPIType.Driller, [("A", -1)])],
    priority_table := [], resource_weight_table := [], transform_range := [] }

/-- The raw KPI snapshot of the C2 scenario. -/
def c2Out : MissionKPICachedInfo :=
  (MissionKPICachedInfo.generate c2Mission [] gC2G gP2N [] c2Config).getD emptyKPIOut

/-- The raw KPI snapshot of the C2 mission under the all-ones (empty-table)
configuration, used as the witness input of the amended bound. -/
def c2WitOut : MissionKPICachedInfo :=
  (MissionKPICachedInfo.generate c2Mission [] gC2G gP2N [] gConfig).getD emptyKPIOut

/-- Player 1's per-component records in the witness snapshot. -/
def c2WitComps : List (KPIComponent × PlayerRawKPIData) :=
  (lookupA c2WitOut.raw_kpi_data 1).getD []

/-- Player 1's Kill record in the witness snapshot. -/
def c2WitKill : PlayerRawKPIData :=
  (lookupA c2WitComps KPIComponent.Kill).getD
    { source_value := 0, weighted_value := 0, mission_total_weighted_value := 0,
      raw_index := 0 }

/-- The raw mission of the C9 scenario: an empty roster, yet a kill row recorded for
player 7. -/
def c9RawInfo : MissionRawInfo :=
  { mission := { id := 9, mission_time := 600 },
    player_info_list := [],
    raw_kill_info_list := [{ player_id := 7, entity_id := 1 }],
    raw_damage_info_list := [],
    raw_resource_info_list := [],
    raw_supply_info_list := [] }

/-- An id mapping resolving only entity 1, enough for the C9 scenario to generate. -/
def c9IDMapping : IDMapping :=
  { id_to_player_name := [],
    id_to_entity_game_id := [(1, "ED_Spider_Grunt")],
    id_to_weapon_game_id := [],
    id_to_resource_game_id := [] }

/-- The cached snapshot of the C9 scenario. -/
def c9Out : MissionCachedInfo :=
  (MissionCachedInfo.generate c9RawInfo [] [] [] c9IDMapping).getD emptyMission

/-- A one-player mission whose kill, damage, resource and supply rows all reference that
roster player (the witness input for the amended C9 invariant). -/
def c9WitRaw : MissionRawInfo :=
  { mission := { id := 91, mission_time := 600 },
    player_info_list := [{ player_id := 1, character_id := 10, present_time := 600,
                           revive_num := 2, death_num := 1 }],
    raw_kill_info_list := [{ player_id := 1, entity_id := 1 }],
    raw_damage_info_list := [{ causer_id := 1, taker_id := 1, weapon_id := 2,
                               causer_type := 1, taker_type := 1, damage := 5 }],
    raw_resource_info_list := [{ player_id := 1, resource_id := 3, amount := 2 }],
    raw_supply_info_list := [{ player_id := 1, ammo := 1/2, health := 0 }] }

/-- The id mapping for the C9 witness mission. -/
def c9WitMapping : IDMapping :=
  { id_to_player_name := [(1, "P1")],
    id_to_entity_game_id := [(1, "ED_Spider_Grunt")],
    id_to_weapon_game_id := [(2, "WPN_Pickaxe")],
    id_to_resource_game_id := [(3, "RES_VEIN_Nitra")] }

/-- The cached snapshot of the C9 witness mission. -/
def c9WitOut : MissionCachedInfo :=
  (MissionCachedInfo.generate c9WitRaw [] [] [] c9WitMapping).getD emptyMission

/-! # Theorems -/

theorem lookupA_mem {α β : Type} [DecidableEq α] {m : List (α × β)} {k : α} {v : β}
    (h : lookupA m k = some v) : (k, v) ∈ m := by
  induction m with
  | nil => simp [lookupA] at h
  | cons hd tl ih =>
    obtain ⟨a, b⟩ := hd
    rw [lookupA] at h
    by_cases hk : k = a
    · subst hk
      rw [if_pos rfl] at h
      cases h
      exact List.mem_cons_self _ _
    · simp only [if_neg hk] at h
      exact List.mem_cons_of_mem _ (ih h)

theorem lookupA_upsertWith_self {α β : Type} [DecidableEq α]
    (m : List (α × β)) (k : α) (d : β) (f : β → β) :
    lookupA (upsertWith m k d f) k = some (f ((lookupA m k).getD d)) := by
  induction m with
  | nil => simp [upsertWith, lookupA]
  | cons hd tl ih =>
    rw [upsertWith]
    by_cases hk : k = hd.1
    · simp [lookupA, hk]
    · simp [lookupA, hk, ih]

theorem lookupA_upsertWith_ne {α β : Type} [DecidableEq α]
    (m : List (α × β)) (k k9 : α) (d : β) (f : β → β) (hne : k9 ≠ k) :
    lookupA (upsertWith m k d f) k9 = lookupA m k9 := by
  induction m with
  | nil => simp [upsertWith, lookupA, hne]
  | cons hd tl ih =>
    obtain ⟨a, b⟩ := hd
    rw [upsertWith]
    by_cases hk : k = a
    · subst hk
      simp [lookupA, hne]
    · simp only [if_neg hk]
      by_cases hk9 : k9 = a
      · simp [lookupA, hk9]
      · simp [lookupA, hk9, ih]

theorem mapKeys_upsertWith {α β : Type} [DecidableEq α]
    (m : List (α × β)) (k : α) (d : β) (f : β → β) {x : α}
    (hx : x ∈ mapKeys (upsertWith m k d f)) : x ∈ mapKeys m ∨ x = k := by
  induction m with
  | nil =>
    simp [upsertWith, mapKeys] at hx
    exact Or.inr hx
  | cons hd tl ih =>
    obtain ⟨a, b⟩ := hd
    rw [upsertWith] at hx
    by_cases hk : k = a
    · simp only [if_pos hk, mapKeys, List.map_cons, List.mem_cons] at hx ⊢
      tauto
    · simp only [if_neg hk, mapKeys, List.map_cons, List.mem_cons] at hx ⊢
      rcases hx with h | h
      · tauto
      · rcases ih h with h | h <;> tauto

theorem friendly_fire_index_antitone {x y : ℚ} (hxy : x ≤ y) :
    friendly_fire_index y ≤ friendly_fire_index x := by
  unfold friendly_fire_index
  by_cases hx : x ≥ 91 / 100
  · have hy : y ≥ 91 / 100 := le_trans hx hxy
    simp [hx, hy]
  · have hx1 : x - 1 < 0 := by
      rw [ge_iff_le, not_le] at hx
      linarith
    by_cases hy : y ≥ 91 / 100
    · rw [if_pos hy, if_neg hx]
      rw [show (-1000 : ℚ) = -1100 + 100 by norm_num]
      have h99 : (-1100 : ℚ) ≤ 99 / (x - 1) := by
        rw [le_div_iff_of_neg hx1]
        rw [ge_iff_le, not_le] at hx
        linarith
      linarith
    · rw [if_neg hy, if_neg hx]
      have hy1 : y - 1 < 0 := by
        rw [ge_iff_le, not_le] at hy
        linarith
      have key : 99 / (y - 1) ≤ 99 / (x - 1) := by
        rw [le_div_iff_of_neg hx1, div_mul_eq_mul_div, le_div_iff_of_neg hy1]
        linarith
      linarith

theorem SchedStep.preserves_worker_count {s t : SchedState} (h : SchedStep s t) :
    t.workers.length = s.workers.length := by
  cases h <;> simp

theorem SchedReachable.worker_count {s : SchedState} (h : SchedReachable s) :
    s.workers.length = 1 := by
  induction h with
  | refl => rfl
  | tail _ hstep ih => rw [hstep.preserves_worker_count, ih]

theorem serializeQMap_append_inj :
    ∀ {inner1 inner2 : List (String × ℚ)} {t1 t2 : List SerToken},
      headIntOrNil t1 → headIntOrNil t2 →
      serializeQMap inner1 ++ t1 = serializeQMap inner2 ++ t2 →
      inner1 = inner2 ∧ t1 = t2 := by
  intro inner1
  induction inner1 with
  | nil =>
    intro inner2 t1 t2 h1 h2 heq
    cases inner2 with
    | nil => exact ⟨rfl, heq⟩
    | cons kv r =>
      simp only [serializeQMap, List.flatMap_nil, List.nil_append, List.flatMap_cons,
        List.cons_append, List.append_assoc] at heq
      rw [heq] at h1
      simp [headIntOrNil] at h1
  | cons kv r ih =>
    intro inner2 t1 t2 h1 h2 heq
    cases inner2 with
    | nil =>
      simp only [serializeQMap, List.flatMap_nil, List.nil_append, List.flatMap_cons,
        List.cons_append, List.append_assoc] at heq
      rw [← heq] at h2
      simp [headIntOrNil] at h2
    | cons kv2 r2 =>
      simp only [serializeQMap, List.flatMap_cons, List.cons_append,
        List.append_assoc] at heq
      rw [List.cons_eq_cons] at heq
      obtain ⟨hs, heq⟩ := heq
      rw [List.cons_eq_cons] at heq
      obtain ⟨hq, hrest⟩ := heq
      have := ih h1 h2 (by simpa [serializeQMap] using hrest)
      refine ⟨?_, this.2⟩
      cases kv
      cases kv2
      simp_all [SerToken.str.injEq, SerToken.num.injEq]

theorem headIntOrNil_serializeResourceInfo (l : List (Int × List (String × ℚ))) :
    headIntOrNil (serializeResourceInfo l) := by
  cases l with
  | nil => simp [serializeResourceInfo, headIntOrNil]
  | cons kv r => simp [serializeResourceInfo, headIntOrNil]

theorem serializeResourceInfo_injective :
    ∀ l1 l2, serializeResourceInfo l1 = serializeResourceInfo l2 → l1 = l2 := by
  intro l1
  induction l1 with
  | nil =>
    intro l2 heq
    cases l2 with
    | nil => rfl
    | cons kv r => simp [serializeResourceInfo] at heq
  | cons kv r ih =>
    intro l2 heq
    cases l2 with
    | nil => simp [serializeResourceInfo] at heq
    | cons kv2 r2 =>
      simp only [serializeResourceInfo, List.flatMap_cons, List.cons_append,
        List.append_assoc] at heq
      rw [List.cons_eq_cons] at heq
      obtain ⟨hk0, hrest⟩ := heq
      have hk : kv.1 = kv2.1 := SerToken.int.inj hk0
      have hinner := serializeQMap_append_inj
        (headIntOrNil_serializeResourceInfo r) (headIntOrNil_serializeResourceInfo r2)
        (by simpa [serializeResourceInfo] using hrest)
      have hr := ih r2 hinner.2
      cases kv
      cases kv2
      simp_all

/-! ## Claim C1 -/
/-- Claim C1: at most one cache-regeneration job is ever in flight.  In every state of
the scheduler transition system reachable from the state `CacheManager::new` sets up
(one spawned worker thread, the bounded job channel), at most one worker is executing a
generator run — so no two generator runs, of any cache kinds, overlap in time. -/
theorem cache_manager_at_most_one_job_in_flight (s : SchedState)
    (h : SchedReachable s) : runningJobs s ≤ 1 := by
  have hlen := h.worker_count
  calc runningJobs s ≤ s.workers.length := List.length_filter_le _ _
    _ = 1 := hlen

/-- Witness for C1 at the initial state. -/
theorem cache_manager_at_most_one_job_in_flight_witness :
    SchedReachable CacheManager.new ∧ runningJobs CacheManager.new ≤ 1 :=
  ⟨Relation.ReflTransGen.refl,
   cache_manager_at_most_one_job_in_flight CacheManager.new Relation.ReflTransGen.refl⟩

/-- Claim C10 (counterexample): regenerating from identical raw rows and identical
mapping tables does NOT guarantee bitwise-identical serialized bytes.  The generated
snapshot's `resource_info` holds two entries; both entry orders are legitimate
iteration orders of the same `HashMap` content (`std` hashers are seeded per instance,
so either can occur in a run), and the two orders serialize to different msgpack
streams. -/
theorem mission_snapshot_bitwise_idempotence_counterexample :
    (MissionCachedInfo.generate c10RawInfo [] [] [] c10IDMapping).map
        MissionCachedInfo.resource_info
      = some [(1, [("RES_VEIN_Nitra", (5 : ℚ))]), (2, [("RES_VEIN_Nitra", (7 : ℚ))])]
    ∧ List.Perm [(2, [("RES_VEIN_Nitra", (7 : ℚ))]), (1, [("RES_VEIN_Nitra", (5 : ℚ))])]
        [(1, [("RES_VEIN_Nitra", (5 : ℚ))]), (2, [("RES_VEIN_Nitra", (7 : ℚ))])]
    ∧ serializeResourceInfo
        [(2, [("RES_VEIN_Nitra", (7 : ℚ))]), (1, [("RES_VEIN_Nitra", (5 : ℚ))])]
      ≠ serializeResourceInfo
        [(1, [("RES_VEIN_Nitra", (5 : ℚ))]), (2, [("RES_VEIN_Nitra", (7 : ℚ))])] := by
  refine ⟨?_, by decide, by decide⟩
  norm_num [MissionCachedInfo.generate, c10RawInfo, c10IDMapping, processResourceRow,
    processKillRow, processDamageRow, processSupplyRow, mkWeaponDamageInfo,
    lookupA, upsertWith, insertOv, List.foldlM, List.mapM, List.mapM.loop]

/-- Claim C10 (amended): regenerating twice from identical raw rows and identical
mapping tables yields identical snapshots (the generation itself is a pure,
deterministic function of its inputs), and the serialized bytes coincide exactly when
the maps' iteration orders coincide — the byte stream determines the entry order, so
bitwise identity holds if and only if the two runs iterate the hash maps in the same
order. -/
theorem mission_snapshot_regeneration_deterministic :
    (∀ raw ebl ec wc idm,
      MissionCachedInfo.generate raw ebl ec wc idm
        = MissionCachedInfo.generate raw ebl ec wc idm)
    ∧ ∀ l1 l2, serializeResourceInfo l1 = serializeResourceInfo l2 → l1 = l2 :=
  ⟨fun _ _ _ _ _ => rfl, serializeResourceInfo_injective⟩

/-- Witness for the amended C10. -/
theorem mission_snapshot_regeneration_deterministic_witness :
    serializeResourceInfo [((1 : Int), [("RES_VEIN_Nitra", (5 : ℚ))])]
      = serializeResourceInfo [((1 : Int), [("RES_VEIN_Nitra", (5 : ℚ))])]
    ∧ [((1 : Int), [("RES_VEIN_Nitra", (5 : ℚ))])]
      = [((1 : Int), [("RES_VEIN_Nitra", (5 : ℚ))])] :=
  ⟨rfl, mission_snapshot_regeneration_deterministic.2 _ _ rfl⟩

/-! ## Generic fold/upsert lemmas -/
theorem foldlM_option_preserve {σ α : Type} {Q : σ → Prop} {step : σ → α → Option σ}
    {l : List α}
    (hstep : ∀ s a, a ∈ l → ∀ s2, Q s → step s a = some s2 → Q s2) :
    ∀ {s res : σ}, Q s → l.foldlM step s = some res → Q res := by
  induction l with
  | nil =>
    intro s res hQ hf
    simp only [List.foldlM_nil, Option.pure_def, Option.some.injEq] at hf
    exact hf ▸ hQ
  | cons a rest ih =>
    intro s res hQ hf
    rw [List.foldlM_cons] at hf
    cases hstep2 : step s a with
    | none =>
      rw [hstep2] at hf
      simp at hf
    | some s2 =>
      rw [hstep2] at hf
      simp only [Option.bind_eq_bind, Option.some_bind] at hf
      exact ih (fun s a2 ha2 => hstep s a2 (List.mem_cons_of_mem _ ha2))
        (hstep s a (List.mem_cons_self _ _) s2 hQ hstep2) hf

theorem mem_upsertWith {α β : Type} [DecidableEq α] {k : α} {d : β} {f : β → β}
    {x : α × β} :
    ∀ {m : List (α × β)}, x ∈ upsertWith m k d f →
      x ∈ m ∨ (x.1 = k ∧ (x.2 = f d ∨ ∃ v, (k, v) ∈ m ∧ x.2 = f v)) := by
  intro m
  induction m with
  | nil =>
    intro hx
    simp only [upsertWith, List.mem_singleton] at hx
    subst hx
    exact Or.inr ⟨rfl, Or.inl rfl⟩
  | cons hd tl ih =>
    intro hx
    obtain ⟨k0, v0⟩ := hd
    rw [upsertWith] at hx
    by_cases hk : k = k0
    · subst hk
      rw [if_pos rfl, List.mem_cons] at hx
      rcases hx with hx | hx
      · subst hx
        exact Or.inr ⟨rfl, Or.inr ⟨v0, List.mem_cons_self _ _, rfl⟩⟩
      · exact Or.inl (List.mem_cons_of_mem _ hx)
    · simp only [if_neg hk, List.mem_cons] at hx
      rcases hx with hx | hx
      · exact Or.inl (by simp [hx])
      · rcases ih hx with h | ⟨h1, h2⟩
        · exact Or.inl (List.mem_cons_of_mem _ h)
        · refine Or.inr ⟨h1, ?_⟩
          rcases h2 with h2 | ⟨v, hv, h2⟩
          · exact Or.inl h2
          · exact Or.inr ⟨v, List.mem_cons_of_mem _ hv, h2⟩

theorem mkTransformSegment_wf {l : List ℚ} {rc : IndexTransformRangeConfig}
    {seg : IndexTransformRange} (h : mkTransformSegment l rc = some seg) :
    SegWellFormed seg := by
  simp only [mkTransformSegment] at h
  split at h
  · exact Option.noConfusion h
  · split at h
    · exact Option.noConfusion h
    · simp only [Option.some.injEq] at h
      subst h
      unfold SegWellFormed
      split <;> simp_all

theorem AllSegs_upsert_push {P : IndexTransformRange → Prop}
    {tr : List (CharacterKPIType × List (KPIComponent × List IndexTransformRange))}
    {r : CharacterKPIType} {comp : KPIComponent} {seg : IndexTransformRange}
    (h : AllSegs P tr) (hseg : P seg) :
    AllSegs P (upsertWith tr r []
      (fun m => upsertWith m comp [] (fun l => l ++ [seg]))) := by
  intro rkv hrkv ckv hckv s hs
  rcases mem_upsertWith hrkv with hold | ⟨hk1, hcase⟩
  · exact h _ hold _ hckv _ hs
  · rcases hcase with h2 | ⟨v, hv, h2⟩
    · rw [h2] at hckv
      simp only [upsertWith, List.mem_singleton] at hckv
      rw [hckv] at hs
      simp only [List.nil_append, List.mem_singleton] at hs
      exact hs ▸ hseg
    · rw [h2] at hckv
      rcases mem_upsertWith hckv with hold2 | ⟨hk2, hcase2⟩
      · exact h _ hv _ hold2 _ hs
      · rcases hcase2 with h3 | ⟨w, hw, h3⟩
        · rw [h3] at hs
          simp only [List.nil_append, List.mem_singleton] at hs
          exact hs ▸ hseg
        · rw [h3] at hs
          rcases List.mem_append.1 hs with hs | hs
          · exact h _ hv _ hw _ hs
          · rw [List.mem_singleton] at hs
            exact hs ▸ hseg

theorem stageC_allSegs {sd : List (CharacterKPIType × List (KPIComponent × List ℚ))}
    {cfg : List IndexTransformRangeConfig}
    {res : List (CharacterKPIType × List (KPIComponent × List IndexTransformRange))}
    (h : stageCTransformRange sd cfg = some res) : AllSegs SegWellFormed res := by
  unfold stageCTransformRange at h
  refine foldlM_option_preserve (Q := AllSegs SegWellFormed) ?_ ?_ h
  · intro s ckv _ s2 hQ hstep
    refine foldlM_option_preserve (Q := AllSegs SegWellFormed) ?_ hQ hstep
    intro s3 comp _ s4 hQ3 hstep3
    split at hstep3
    · exact Option.noConfusion hstep3
    · refine foldlM_option_preserve (Q := AllSegs SegWellFormed) ?_ hQ3 hstep3
      intro s5 rc _ s6 hQ5 hstep5
      cases hmk : mkTransformSegment _ rc with
      | none =>
        rw [hmk] at hstep5
        exact Option.noConfusion hstep5
      | some seg =>
        rw [hmk] at hstep5
        simp only [Option.map_some', Option.some.injEq] at hstep5
        exact hstep5 ▸ AllSegs_upsert_push hQ5 (mkTransformSegment_wf hmk)
  · intro rkv h
    exact absurd h (List.not_mem_nil _)

/-- Every transform segment stored by `CachedGlobalKPIState::generate` satisfies the
coefficient shape invariant. -/
theorem generate_transform_allSegs {cached_mission_list : List MissionCachedInfo}
    {cached_mission_kpi_list : List MissionKPICachedInfo}
    {invalid_mission_id_list : List Int} {kpi_config : KPIConfig}
    {player_id_to_name character_id_to_game_id : List (Int × String)}
    {scout_special_player_set : List String} {st : CachedGlobalKPIState}
    (hgen : CachedGlobalKPIState.generate cached_mission_list cached_mission_kpi_list
      invalid_mission_id_list kpi_config player_id_to_name character_id_to_game_id
      scout_special_player_set = some st) :
    AllSegs SegWellFormed st.transform_range := by
  simp only [CachedGlobalKPIState.generate] at hgen
  split at hgen
  · cases hgen
    intro rkv h
    exact absurd h (List.not_mem_nil _)
  · split at hgen
    · exact Option.noConfusion hgen
    · split at hgen
      · split at hgen
        · exact Option.noConfusion hgen
        · split at hgen
          · exact Option.noConfusion hgen
          · split at hgen
            · exact Option.noConfusion hgen
            · rename_i tr htrc
              cases hgen
              exact stageC_allSegs htrc
      · exact Option.noConfusion hgen

/-- Claim C5: for every percentile transform segment stored by
`CachedGlobalKPIState::generate` whose `source_max` differs from `source_min`,
evaluating the stored linear coefficients `y = a*x + b` at `x = source_min` yields the
segment's `target_min`, and at `x = source_max` its `target_max` (exactly, in the
rational model; the source computes the same expressions in `f64`). -/
theorem percentile_transform_segment_endpoints
    (cached_mission_list : List MissionCachedInfo)
    (cached_mission_kpi_list : List MissionKPICachedInfo)
    (invalid_mission_id_list : List Int) (kpi_config : KPIConfig)
    (player_id_to_name character_id_to_game_id : List (Int × String))
    (scout_special_player_set : List String) (st : CachedGlobalKPIState)
    (hgen : CachedGlobalKPIState.generate cached_mission_list cached_mission_kpi_list
      invalid_mission_id_list kpi_config player_id_to_name character_id_to_game_id
      scout_special_player_set = some st)
    (r : CharacterKPIType) (m : List (KPIComponent × List IndexTransformRange))
    (comp : KPIComponent) (segs : List IndexTransformRange) (seg : IndexTransformRange)
    (hr : lookupA st.transform_range r = some m) (hc : lookupA m comp = some segs)
    (hseg : seg ∈ segs) (hne : seg.source_range.2 ≠ seg.source_range.1) :
    seg.transform_coefficient.1 * seg.source_range.1 + seg.transform_coefficient.2
      = seg.transform_range.1 ∧
    seg.transform_coefficient.1 * seg.source_range.2 + seg.transform_coefficient.2
      = seg.transform_range.2 := by
  have hwf := generate_transform_allSegs hgen _ (lookupA_mem hr) _ (lookupA_mem hc) _ hseg
  unfold SegWellFormed at hwf
  have hd : seg.source_range.2 - seg.source_range.1 ≠ 0 := sub_ne_zero.mpr hne
  rw [if_neg hd] at hwf
  rw [hwf]
  have hmul : (seg.transform_range.2 - seg.transform_range.1) /
        (seg.source_range.2 - seg.source_range.1) *
        (seg.source_range.2 - seg.source_range.1)
      = seg.transform_range.2 - seg.transform_range.1 := div_mul_cancel₀ _ hd
  constructor
  · dsimp only
    ring
  · dsimp only
    linear_combination hmul

/-- Witness for C5: the first stored Engineer/Damage segment of the concrete pipeline
has `source_range = (0, 1/4)` and coefficients `(40, 0)`, and evaluating the line at
the endpoints yields the target range `(0, 10)`. -/
theorem percentile_transform_segment_endpoints_witness :
    (CachedGlobalKPIState.generate [gMission] gKpiList [] gConfig gP2N gC2G []
        = some gState)
    ∧ lookupA gState.transform_range CharacterKPIType.Engineer = some gMEng
    ∧ lookupA gMEng KPIComponent.Damage = some gSegsEngDamage
    ∧ gSegEngDamage ∈ gSegsEngDamage
    ∧ gSegEngDamage.source_range.2 ≠ gSegEngDamage.source_range.1
    ∧ (gSegEngDamage.transform_coefficient.1 * gSegEngDamage.source_range.1
          + gSegEngDamage.transform_coefficient.2 = gSegEngDamage.transform_range.1
       ∧ gSegEngDamage.transform_coefficient.1 * gSegEngDamage.source_range.2
          + gSegEngDamage.transform_coefficient.2 = gSegEngDamage.transform_range.2) := by
  have hg : CachedGlobalKPIState.generate [gMission] gKpiList [] gConfig gP2N gC2G []
      = some gState := by with_unfolding_all decide
  have h1 : lookupA gState.transform_range CharacterKPIType.Engineer = some gMEng := by
    with_unfolding_all decide
  have h2 : lookupA gMEng KPIComponent.Damage = some gSegsEngDamage := by
    with_unfolding_all decide
  have h3 : gSegEngDamage ∈ gSegsEngDamage := by with_unfolding_all decide
  have h4 : gSegEngDamage.source_range.2 ≠ gSegEngDamage.source_range.1 := by
    with_unfolding_all decide
  exact ⟨hg, h1, h2, h3, h4,
    percentile_transform_segment_endpoints [gMission] gKpiList [] gConfig gP2N gC2G []
      gState hg CharacterKPIType.Engineer gMEng KPIComponent.Damage gSegsEngDamage
      gSegEngDamage h1 h2 h3 h4⟩

/-- Claim C6 (counterexample): the degenerate branch is NOT a flat midpoint fallback
and it can divide by zero.  For the concrete pipeline the first stored Driller/Nitra
segment has `source_min = source_max = 0`, and the source then computes
`a = (transform_max + transform_min) / (2.0 * source_min)` — a division by
`2 * source_min = 0` (in IEEE `f64` the coefficient becomes `+inf`, and evaluating
`a*x + b` at `x = 0` gives `NaN`; in the exact rational model the division yields `0`).
Either way the evaluated value is not the midpoint `5` of the target range `(0, 10)`,
and the divisor used is `0`. -/
theorem percentile_degenerate_divzero_counterexample :
    (CachedGlobalKPIState.generate [gMission] gKpiList [] gConfig gP2N gC2G []
        = some gState)
    ∧ lookupA gState.transform_range CharacterKPIType.Driller = some gMDriller
    ∧ lookupA gMDriller KPIComponent.Nitra = some gSegsDrillerNitra
    ∧ gSegDrillerNitra0 ∈ gSegsDrillerNitra
    ∧ gSegDrillerNitra0.source_range = (0, 0)
    ∧ gSegDrillerNitra0.transform_range = (0, 10)
    ∧ transformSegmentDivisor gSegDrillerNitra0.source_range.1
        gSegDrillerNitra0.source_range.2 = 0
    ∧ gSegDrillerNitra0.transform_coefficient.1 * gSegDrillerNitra0.source_range.1
        + gSegDrillerNitra0.transform_coefficient.2
      ≠ (gSegDrillerNitra0.transform_range.1 + gSegDrillerNitra0.transform_range.2) / 2
    := by
  with_unfolding_all decide

/-- Claim C6 (amended): for a stored segment with `source_max == source_min =: s`, the
coefficients are `a = (target_min + target_max) / (2*s)` and `b = 0`; when `s ≠ 0` the
divisor `2*s` is nonzero and evaluating `a*x + b` at the single point `x = s` of the
source range yields the midpoint of the target range, but when `s = 0` the computation
divides by zero (no flat fallback exists in the code). -/
theorem percentile_degenerate_segment_midpoint
    (cached_mission_list : List MissionCachedInfo)
    (cached_mission_kpi_list : List MissionKPICachedInfo)
    (invalid_mission_id_list : List Int) (kpi_config : KPIConfig)
    (player_id_to_name character_id_to_game_id : List (Int × String))
    (scout_special_player_set : List String) (st : CachedGlobalKPIState)
    (hgen : CachedGlobalKPIState.generate cached_mission_list cached_mission_kpi_list
      invalid_mission_id_list kpi_config player_id_to_name character_id_to_game_id
      scout_special_player_set = some st)
    (r : CharacterKPIType) (m : List (KPIComponent × List IndexTransformRange))
    (comp : KPIComponent) (segs : List IndexTransformRange) (seg : IndexTransformRange)
    (hr : lookupA st.transform_range r = some m) (hc : lookupA m comp = some segs)
    (hseg : seg ∈ segs) (hdeg : seg.source_range.2 = seg.source_range.1)
    (hs0 : seg.source_range.1 ≠ 0) :
    seg.transform_coefficient.2 = 0
    ∧ seg.transform_coefficient.1 * seg.source_range.1 + seg.transform_coefficient.2
        = (seg.transform_range.1 + seg.transform_range.2) / 2
    ∧ transformSegmentDivisor seg.source_range.1 seg.source_range.2 ≠ 0 := by
  have hwf := generate_transform_allSegs hgen _ (lookupA_mem hr) _ (lookupA_mem hc) _ hseg
  unfold SegWellFormed at hwf
  have hd : seg.source_range.2 - seg.source_range.1 = 0 := by
    rw [hdeg]
    ring
  rw [if_pos hd] at hwf
  rw [hwf]
  refine ⟨rfl, ?_, ?_⟩
  · dsimp only
    rw [div_mul_eq_mul_div, mul_comm 2 seg.source_range.1, ← div_div,
      mul_div_assoc, div_self hs0, mul_one]
    ring_nf
  · unfold transformSegmentDivisor
    rw [if_pos hd]
    exact mul_ne_zero two_ne_zero hs0

/-- Witness for the amended C6: the second stored Driller/Nitra segment of the concrete
pipeline is degenerate at `s = 1/2` with coefficients `(10, 0)`, and `10 * (1/2) = 5`
is the midpoint of the target range `(0, 10)`. -/
theorem percentile_degenerate_segment_midpoint_witness :
    (CachedGlobalKPIState.generate [gMission] gKpiList [] gConfig gP2N gC2G []
        = some gState)
    ∧ lookupA gState.transform_range CharacterKPIType.Driller = some gMDriller
    ∧ lookupA gMDriller KPIComponent.Nitra = some gSegsDrillerNitra
    ∧ gSegDrillerNitra1 ∈ gSegsDrillerNitra
    ∧ gSegDrillerNitra1.source_range.2 = gSegDrillerNitra1.source_range.1
    ∧ gSegDrillerNitra1.source_range.1 ≠ 0
    ∧ (gSegDrillerNitra1.transform_coefficient.2 = 0
       ∧ gSegDrillerNitra1.transform_coefficient.1 * gSegDrillerNitra1.source_range.1
           + gSegDrillerNitra1.transform_coefficient.2
         = (gSegDrillerNitra1.transform_range.1 + gSegDrillerNitra1.transform_range.2) / 2
       ∧ transformSegmentDivisor gSegDrillerNitra1.source_range.1
           gSegDrillerNitra1.source_range.2 ≠ 0) := by
  have hg : CachedGlobalKPIState.generate [gMission] gKpiList [] gConfig gP2N gC2G []
      = some gState := by with_unfolding_all decide
  have h1 : lookupA gState.transform_range CharacterKPIType.Driller = some gMDriller := by
    with_unfolding_all decide
  have h2 : lookupA gMDriller KPIComponent.Nitra = some gSegsDrillerNitra := by
    with_unfolding_all decide
  have h3 : gSegDrillerNitra1 ∈ gSegsDrillerNitra := by with_unfolding_all decide
  have h4 : gSegDrillerNitra1.source_range.2 = gSegDrillerNitra1.source_range.1 := by
    with_unfolding_all decide
  have h5 : gSegDrillerNitra1.source_range.1 ≠ 0 := by with_unfolding_all decide
  exact ⟨hg, h1, h2, h3, h4, h5,
    percentile_degenerate_segment_midpoint [gMission] gKpiList [] gConfig gP2N gC2G []
      gState hg CharacterKPIType.Driller gMDriller KPIComponent.Nitra gSegsDrillerNitra
      gSegDrillerNitra1 h1 h2 h3 h4 h5⟩

theorem mapO_some_forall {α β : Type} {f : α → Option β} :
    ∀ {l : List α} {res : List β}, mapO f l = some res →
      ∀ x ∈ l, ∃ y ∈ res, f x = some y := by
  intro l
  induction l with
  | nil =>
    intro res h x hx
    exact absurd hx (List.not_mem_nil _)
  | cons a rest ih =>
    intro res h x hx
    rw [mapO] at h
    cases hfa : f a with
    | none => rw [hfa] at h; exact Option.noConfusion h
    | some b =>
      rw [hfa] at h
      cases hrest : mapO f rest with
      | none => rw [hrest] at h; exact Option.noConfusion h
      | some bs =>
        rw [hrest] at h
        cases h
        rcases List.mem_cons.1 hx with hx | hx
        · exact ⟨b, List.mem_cons_self _ _, hx ▸ hfa⟩
        · obtain ⟨y, hy, hfy⟩ := ih hrest x hx
          exact ⟨y, List.mem_cons_of_mem _ hy, hfy⟩

theorem mapO_some_back {α β : Type} {f : α → Option β} :
    ∀ {l : List α} {res : List β}, mapO f l = some res →
      ∀ y ∈ res, ∃ x ∈ l, f x = some y := by
  intro l
  induction l with
  | nil =>
    intro res h y hy
    rw [mapO] at h
    cases h
    exact absurd hy (List.not_mem_nil _)
  | cons a rest ih =>
    intro res h y hy
    rw [mapO] at h
    cases hfa : f a with
    | none => rw [hfa] at h; exact Option.noConfusion h
    | some b =>
      rw [hfa] at h
      cases hrest : mapO f rest with
      | none => rw [hrest] at h; exact Option.noConfusion h
      | some bs =>
        rw [hrest] at h
        cases h
        rcases List.mem_cons.1 hy with hy | hy
        · exact ⟨a, List.mem_cons_self _ _, hy ▸ hfa⟩
        · obtain ⟨x, hx, hfx⟩ := ih hrest y hy
          exact ⟨x, List.mem_cons_of_mem _ hx, hfx⟩

theorem foldl_min_le_init : ∀ (l : List ℚ) (a : ℚ), l.foldl min a ≤ a := by
  intro l
  induction l with
  | nil => intro a; exact le_refl a
  | cons b ys ih =>
    intro a
    rw [List.foldl_cons]
    exact le_trans (ih (min a b)) (min_le_left a b)

theorem foldl_min_le {x : ℚ} : ∀ (l : List ℚ) (a : ℚ), x ∈ a :: l → l.foldl min a ≤ x := by
  intro l
  induction l with
  | nil =>
    intro a hx
    simp only [List.mem_singleton] at hx
    simp [hx]
  | cons b ys ih =>
    intro a hx
    rw [List.foldl_cons]
    rcases List.mem_cons.1 hx with h | h
    · subst h
      exact le_trans (foldl_min_le_init ys (min x b)) (min_le_left x b)
    · rcases List.mem_cons.1 h with h2 | h2
      · subst h2
        exact le_trans (foldl_min_le_init ys (min a x)) (min_le_right a x)
      · exact ih (min a b) (List.mem_cons_of_mem _ h2)

theorem foldl_min_mem : ∀ (l : List ℚ) (a : ℚ), l.foldl min a ∈ a :: l := by
  intro l
  induction l with
  | nil => intro a; simp
  | cons b ys ih =>
    intro a
    rw [List.foldl_cons]
    have := ih (min a b)
    rcases List.mem_cons.1 this with h | h
    · rcases min_choice a b with hc | hc
      · exact List.mem_cons.2 (Or.inl (h.trans hc))
      · exact List.mem_cons_of_mem _ (List.mem_cons.2 (Or.inl (h.trans hc)))
    · exact List.mem_cons_of_mem _ (List.mem_cons_of_mem _ h)

theorem listMinD_le {l : List ℚ} {x : ℚ} (hx : x ∈ l) : listMinD l ≤ x := by
  cases l with
  | nil => exact absurd hx (List.not_mem_nil _)
  | cons a xs => exact foldl_min_le xs a hx

theorem listMinD_mem {l : List ℚ} (h : l ≠ []) : listMinD l ∈ l := by
  cases l with
  | nil => exact absurd rfl h
  | cons a xs => exact foldl_min_mem xs a

theorem lookupA_map_keyed {α β γ : Type} [DecidableEq α] (l : List (α × β))
    (g : α → β → γ) (k : α) :
    lookupA (l.map (fun kv => (kv.1, g kv.1 kv.2))) k = (lookupA l k).map (g k) := by
  induction l with
  | nil => rfl
  | cons hd tl ih =>
    obtain ⟨k0, v0⟩ := hd
    by_cases hk : k = k0 <;> simp [lookupA, hk, ih]

theorem updFactor_value (md mp mk0 mn mm : ℚ) (comp : KPIComponent)
    (info : CorrectionFactorInfo) : (updFactor md mp mk0 mn mm comp info).value
      = info.value := by
  cases comp <;> rfl

theorem setCorrectionFactors_eq_map (ci : List (KPIComponent × CorrectionFactorInfo))
    (md mp mk0 mn mm : ℚ) :
    setCorrectionFactors ci md mp mk0 mn mm
      = ci.map (fun kv => (kv.1, updFactor md mp mk0 mn mm kv.1 kv.2)) := by
  unfold setCorrectionFactors
  apply List.map_congr_left
  intro kv _
  obtain ⟨c, i⟩ := kv
  cases c <;> rfl

/-- Inversion of `CachedGlobalKPIState::generate` on the correction-factor field: it is
either empty (no valid missions) or the factor update applied, per role, to some Stage A
map whose per-component minima the five `min_*` values are. -/
theorem generate_ccf_structure {cached_mission_list : List MissionCachedInfo}
    {cached_mission_kpi_list : List MissionKPICachedInfo}
    {invalid_mission_id_list : List Int} {kpi_config : KPIConfig}
    {player_id_to_name character_id_to_game_id : List (Int × String)}
    {scout_special_player_set : List String} {st : CachedGlobalKPIState}
    (hgen : CachedGlobalKPIState.generate cached_mission_list cached_mission_kpi_list
      invalid_mission_id_list kpi_config player_id_to_name character_id_to_game_id
      scout_special_player_set = some st) :
    st.character_correction_factor = [] ∨
    ∃ ccf0 md mp mk0 mn mm,
      st.character_correction_factor
        = ccf0.map (fun kv => (kv.1, setCorrectionFactors kv.2 md mp mk0 mn mm))
      ∧ minCorrectionValue ccf0 KPIComponent.Damage = some md
      ∧ minCorrectionValue ccf0 KPIComponent.Priority = some mp
      ∧ minCorrectionValue ccf0 KPIComponent.Kill = some mk0
      ∧ minCorrectionValue ccf0 KPIComponent.Nitra = some mn
      ∧ minCorrectionValue ccf0 KPIComponent.Minerals = some mm := by
  simp only [CachedGlobalKPIState.generate] at hgen
  split at hgen
  · cases hgen
    exact Or.inl rfl
  · split at hgen
    · exact Option.noConfusion hgen
    · split at hgen
      · rename_i md mp mk0 mn mm hmd hmp hmk hmn hmm
        split at hgen
        · exact Option.noConfusion hgen
        · split at hgen
          · exact Option.noConfusion hgen
          · split at hgen
            · exact Option.noConfusion hgen
            · cases hgen
              exact Or.inr ⟨_, md, mp, mk0, mn, mm, rfl, hmd, hmp, hmk, hmn, hmm⟩
      · exact Option.noConfusion hgen

/-- The correction-factor bounds over one updated Stage A map: every factor for `comp`
is `value / minc ≥ 1`, and `= 1` for entries of minimal value. -/
theorem correction_factor_map_bounds
    {ccf0 : List (CharacterKPIType × List (KPIComponent × CorrectionFactorInfo))}
    {md mp mk0 mn mm : ℚ} {comp : KPIComponent} {minc : ℚ}
    (hsel : ∀ info : CorrectionFactorInfo,
      (updFactor md mp mk0 mn mm comp info).correction_factor = info.value / minc)
    (hmin : minCorrectionValue ccf0 comp = some minc)
    (hpos : ∀ kv ∈ ccf0, ∀ info : CorrectionFactorInfo,
      lookupA kv.2 comp = some info → 0 < info.value) :
    ∀ rkv ∈ ccf0.map (fun kv => (kv.1, setCorrectionFactors kv.2 md mp mk0 mn mm)),
      ∀ info : CorrectionFactorInfo, lookupA rkv.2 comp = some info →
        1 ≤ info.correction_factor ∧
        ((∀ kv ∈ ccf0, ∀ oinfo : CorrectionFactorInfo,
            lookupA kv.2 comp = some oinfo → info.value ≤ oinfo.value) →
          info.correction_factor = 1) := by
  -- unpack the minimum
  unfold minCorrectionValue at hmin
  cases hmapo : mapO (fun kv => lookupA kv.2 comp) ccf0 with
  | none =>
    rw [hmapo] at hmin
    exact Option.noConfusion hmin
  | some infos =>
    rw [hmapo] at hmin
    simp only [Option.map_some', Option.some.injEq] at hmin
    intro rkv hrkv info hinfo
    obtain ⟨kv0, hkv0, hmap⟩ := List.mem_map.1 hrkv
    obtain ⟨r, ci0⟩ := kv0
    cases hmap
    simp only [setCorrectionFactors_eq_map, lookupA_map_keyed] at hinfo
    cases hl : lookupA ci0 comp with
    | none =>
      rw [hl] at hinfo
      exact Option.noConfusion hinfo
    | some info0 =>
      rw [hl] at hinfo
      simp only [Option.map_some', Option.some.injEq] at hinfo
      -- `info0` occurs in `infos`
      obtain ⟨y, hy, hfy⟩ := mapO_some_forall hmapo (r, ci0) hkv0
      rw [hl] at hfy
      cases hfy
      have hminle : minc ≤ info0.value := by
        rw [← hmin]
        exact listMinD_le (List.mem_map.2 ⟨info0, hy, rfl⟩)
      -- the minimum is attained by some entry, whose value is positive
      have hne : infos ≠ [] := by
        intro hemp
        rw [hemp] at hy
        exact absurd hy (List.not_mem_nil _)
      have hminmem : listMinD (infos.map CorrectionFactorInfo.value)
          ∈ infos.map CorrectionFactorInfo.value :=
        listMinD_mem (by simpa using hne)
      obtain ⟨info1, hinfo1, hval1⟩ := List.mem_map.1 hminmem
      obtain ⟨kv1, hkv1, hfkv1⟩ := mapO_some_back hmapo info1 hinfo1
      have hpos1 : 0 < info1.value := hpos kv1 hkv1 info1 hfkv1
      have hv1 : info1.value = minc := hval1.trans hmin
      have hminpos : 0 < minc := hv1 ▸ hpos1
      have hiv : info.value = info0.value := by
        rw [← hinfo, updFactor_value]
      constructor
      · rw [← hinfo, hsel]
        exact (one_le_div hminpos).2 hminle
      · intro hlow
        have h1 : info0.value ≤ minc := by
          rw [← hv1, ← hiv]
          exact hlow kv1 hkv1 info1 hfkv1
        have h2 : info0.value = minc := le_antisymm h1 hminle
        rw [← hinfo, hsel, h2]
        exact div_self (ne_of_gt hminpos)

/-- Claim C3: for every global KPI state generated from a non-empty valid mission list
in which every present role's player-index-weighted average value of each correctable
component is strictly positive, every role's correction factor for that component is
≥ 1.0, and any role whose average value is minimal for that component has correction
factor exactly 1.0. -/
theorem correction_factor_minimal_role
    (cached_mission_list : List MissionCachedInfo)
    (cached_mission_kpi_list : List MissionKPICachedInfo)
    (invalid_mission_id_list : List Int) (kpi_config : KPIConfig)
    (player_id_to_name character_id_to_game_id : List (Int × String))
    (scout_special_player_set : List String) (st : CachedGlobalKPIState)
    (hgen : CachedGlobalKPIState.generate cached_mission_list cached_mission_kpi_list
      invalid_mission_id_list kpi_config player_id_to_name character_id_to_game_id
      scout_special_player_set = some st)
    (hnonempty : cached_mission_list ≠ [])
    (hpos : ∀ rkv ∈ st.character_correction_factor, ∀ ckv ∈ rkv.2, 0 < ckv.2.value) :
    ∀ comp ∈ CORRECTION_ITEMS, ∀ rkv ∈ st.character_correction_factor,
      ∀ info : CorrectionFactorInfo, lookupA rkv.2 comp = some info →
        1 ≤ info.correction_factor ∧
        ((∀ okv ∈ st.character_correction_factor, ∀ oinfo : CorrectionFactorInfo,
            lookupA okv.2 comp = some oinfo → info.value ≤ oinfo.value) →
          info.correction_factor = 1) := by
  intro comp hcomp rkv hrkv info hinfo
  rcases generate_ccf_structure hgen with hemp |
    ⟨ccf0, md, mp, mk0, mn, mm, hmap, hmd, hmp, hmk, hmn, hmm⟩
  · rw [hemp] at hrkv
    exact absurd hrkv (List.not_mem_nil _)
  · have hpos0 : ∀ kv ∈ ccf0, ∀ i : CorrectionFactorInfo,
        lookupA kv.2 comp = some i → 0 < i.value := by
      intro kv hkv i hi
      have hmem : (kv.1, setCorrectionFactors kv.2 md mp mk0 mn mm)
          ∈ st.character_correction_factor := by
        rw [hmap]
        exact List.mem_map.2 ⟨kv, hkv, rfl⟩
      have hlook : lookupA (setCorrectionFactors kv.2 md mp mk0 mn mm) comp
          = some (updFactor md mp mk0 mn mm comp i) := by
        rw [setCorrectionFactors_eq_map, lookupA_map_keyed, hi]
        rfl
      have := hpos _ hmem _ (lookupA_mem hlook)
      simpa [updFactor_value] using this
    have hcomp5 : comp = KPIComponent.Damage ∨ comp = KPIComponent.Priority ∨
        comp = KPIComponent.Kill ∨ comp = KPIComponent.Nitra ∨
        comp = KPIComponent.Minerals := by
      simpa [CORRECTION_ITEMS] using hcomp
    obtain ⟨minc, hmin, hsel⟩ :
        ∃ minc, minCorrectionValue ccf0 comp = some minc ∧
          ∀ i : CorrectionFactorInfo,
            (updFactor md mp mk0 mn mm comp i).correction_factor = i.value / minc := by
      rcases hcomp5 with h | h | h | h | h <;> subst h
      · exact ⟨md, hmd, fun i => rfl⟩
      · exact ⟨mp, hmp, fun i => rfl⟩
      · exact ⟨mk0, hmk, fun i => rfl⟩
      · exact ⟨mn, hmn, fun i => rfl⟩
      · exact ⟨mm, hmm, fun i => rfl⟩
    rw [hmap] at hrkv
    have key := correction_factor_map_bounds hsel hmin hpos0 rkv hrkv info hinfo
    refine ⟨key.1, fun hlow => key.2 ?_⟩
    intro kv hkv oinfo hoinfo
    have hmem2 : (kv.1, setCorrectionFactors kv.2 md mp mk0 mn mm)
        ∈ st.character_correction_factor := by
      rw [hmap]
      exact List.mem_map.2 ⟨kv, hkv, rfl⟩
    have hlook2 : lookupA (setCorrectionFactors kv.2 md mp mk0 mn mm) comp
        = some (updFactor md mp mk0 mn mm comp oinfo) := by
      rw [setCorrectionFactors_eq_map, lookupA_map_keyed, hoinfo]
      rfl
    have := hlow _ hmem2 _ hlook2
    simpa [updFactor_value] using this

/-- Witness for C3 at the concrete five-player pipeline: every average is positive and
every factor is ≥ 1, with the minimal roles at exactly 1. -/
theorem correction_factor_minimal_role_witness :
    (CachedGlobalKPIState.generate [gMission] gKpiList [] gConfig gP2N gC2G []
        = some gState)
    ∧ [gMission] ≠ ([] : List MissionCachedInfo)
    ∧ (∀ rkv ∈ gState.character_correction_factor, ∀ ckv ∈ rkv.2, 0 < ckv.2.value)
    ∧ (∀ comp ∈ CORRECTION_ITEMS, ∀ rkv ∈ gState.character_correction_factor,
        ∀ info : CorrectionFactorInfo, lookupA rkv.2 comp = some info →
          1 ≤ info.correction_factor ∧
          ((∀ okv ∈ gState.character_correction_factor,
              ∀ oinfo : CorrectionFactorInfo,
              lookupA okv.2 comp = some oinfo → info.value ≤ oinfo.value) →
            info.correction_factor = 1)) := by
  have hg : CachedGlobalKPIState.generate [gMission] gKpiList [] gConfig gP2N gC2G []
      = some gState := by with_unfolding_all decide
  have hne : [gMission] ≠ ([] : List MissionCachedInfo) := by simp
  have hpos : ∀ rkv ∈ gState.character_correction_factor, ∀ ckv ∈ rkv.2,
      0 < ckv.2.value := by with_unfolding_all decide
  exact ⟨hg, hne, hpos,
    correction_factor_minimal_role [gMission] gKpiList [] gConfig gP2N gC2G [] gState
      hg hne hpos⟩

theorem lookupA_insertOv_self {α β : Type} [DecidableEq α] (m : List (α × β)) (k : α)
    (v : β) : lookupA (insertOv m k v) k = some v := by
  unfold insertOv
  rw [lookupA_upsertWith_self]

theorem lookupA_insertOv_ne {α β : Type} [DecidableEq α] (m : List (α × β)) (k k9 : α)
    (v : β) (h : k9 ≠ k) : lookupA (insertOv m k v) k9 = lookupA m k9 :=
  lookupA_upsertWith_ne m k k9 v _ h

/-- Inversion of `MissionKPICachedInfo::generate`: the player fold succeeded with the
generate-internal maps as arguments, and the output fields are the fold results. -/
theorem missionKPI_generate_inversion {mi : MissionCachedInfo}
    {assigned : List AssignedKPI} {c2g p2n : List (Int × String)}
    {scouts : List String} {cfg : KPIConfig} {out : MissionKPICachedInfo}
    (hgen : MissionKPICachedInfo.generate mi assigned c2g p2n scouts cfg = some out) :
    ∃ res : List (Int × CharacterKPIType) ×
            List (Int × List (KPIComponent × PlayerRawKPIData)),
      mi.player_info.foldlM
        (kpiPlayerStep mi cfg (damage_map_of mi)
          (map_inner_value mi.kill_info
            (fun kill_pack => some (kill_pack.total_amount : ℚ)))
          (map_inner_value mi.resource_info some)
          (MissionCachedInfo.combine_damage_info mi.damage_info)
          (MissionCachedInfo.combine_kill_info mi.kill_info)
          (MissionCachedInfo.combine_resource_info mi.resource_info)
          (apply_weight_table (MissionCachedInfo.combine_resource_info mi.resource_info)
            cfg.resource_weight_table)
          (((mi.player_info.map PlayerInfo.revive_num).sum : Int) : ℚ)
          (((mi.player_info.map PlayerInfo.death_num).sum : Int) : ℚ)
          (((mi.supply_info.map (fun kv => (kv.2.length : Int))).sum : Int) : ℚ)
          c2g p2n scouts) ([], []) = some res
      ∧ out.raw_kpi_data = res.2
      ∧ out.assigned_kpi_info = assigned.foldl mergeAssignedRow [] := by
  simp only [MissionKPICachedInfo.generate] at hgen
  split at hgen
  · exact Option.noConfusion hgen
  · rename_i a b hfold
    cases hgen
    exact ⟨(a, b), hfold, rfl, rfl⟩

/-- Inversion of the player fold: every recorded per-player map is the per-player body
applied to some roster player with that player id (the role's weight table existing or
defaulting to the empty map). -/
theorem kpiPlayerFold_lookup (mi : MissionCachedInfo) (cfg : KPIConfig)
    (dm km rm : List (Int × List (String × ℚ))) (tdm tkm trm twrm : List (String × ℚ))
    (trc tdc tsc : ℚ) (c2g p2n : List (Int × String)) (scouts : List String) :
    ∀ (players : List PlayerInfo)
      (acc res : List (Int × CharacterKPIType) ×
                 List (Int × List (KPIComponent × PlayerRawKPIData))),
      players.foldlM (kpiPlayerStep mi cfg dm km rm tdm tkm trm twrm trc tdc tsc
        c2g p2n scouts) acc = some res →
      ∀ (p : Int) (comps : List (KPIComponent × PlayerRawKPIData)),
        lookupA res.2 p = some comps →
        (∃ pi0 ∈ players, pi0.player_id = p ∧ ∃ cwt,
          comps = playerRawKPIDataFor mi cfg dm km rm tdm tkm trm twrm trc tdc tsc
            cwt pi0)
        ∨ lookupA acc.2 p = some comps := by
  intro players
  induction players with
  | nil =>
    intro acc res h p comps hp
    simp only [List.foldlM_nil, Option.pure_def, Option.some.injEq] at h
    subst h
    exact Or.inr hp
  | cons pi0 rest ih =>
    intro acc res h p comps hp
    rw [List.foldlM_cons] at h
    cases hstep : kpiPlayerStep mi cfg dm km rm tdm tkm trm twrm trc tdc tsc c2g p2n
        scouts acc pi0 with
    | none =>
      rw [hstep] at h
      exact Option.noConfusion h
    | some acc2 =>
      rw [hstep] at h
      simp only [Option.bind_eq_bind, Option.some_bind] at h
      rcases ih acc2 res h p comps hp with ⟨pi2, hpi2, hid, cwt, hc⟩ | hacc2
      · exact Or.inl ⟨pi2, List.mem_cons_of_mem _ hpi2, hid, cwt, hc⟩
      · unfold kpiPlayerStep at hstep
        split at hstep
        · split at hstep
          · exact Option.noConfusion hstep
          · simp only [Option.some.injEq] at hstep
            rw [← hstep] at hacc2
            by_cases hpid : p = pi0.player_id
            · rw [hpid] at hacc2 ⊢
              rw [lookupA_insertOv_self] at hacc2
              cases hacc2
              exact Or.inl ⟨pi0, List.mem_cons_self _ _, rfl, _, rfl⟩
            · rw [lookupA_insertOv_ne _ _ _ _ hpid] at hacc2
              exact Or.inr hacc2
        · exact Option.noConfusion hstep

/-- The FriendlyFire record of the per-player body, in terms of the named
sub-expressions. -/
theorem playerRawKPIDataFor_lookup_ff (mi : MissionCachedInfo) (cfg : KPIConfig)
    (dm km rm : List (Int × List (String × ℚ))) (tdm tkm trm twrm : List (String × ℚ))
    (trc tdc tsc : ℚ) (cwt : List (String × ℚ)) (pi0 : PlayerInfo) :
    lookupA (playerRawKPIDataFor mi cfg dm km rm tdm tkm trm twrm trc tdc tsc cwt pi0)
      KPIComponent.FriendlyFire
    = some { source_value := player_friendly_fire_of mi pi0.player_id,
             weighted_value := ff_index_of mi dm pi0.player_id,
             mission_total_weighted_value := 0,
             raw_index := ff_index_of mi dm pi0.player_id } := rfl

/-- Claim C4 (amended): in every generated `MissionKPICachedInfo`, a player's
FriendlyFire index is `friendly_fire_index(rate)` with
`rate = friendly_damage / (non_friendly_damage + friendly_damage)` whenever the
denominator is not in `[0, 1e-3)`; when the denominator is in `[0, 1e-3)` the index is
`1.0` (zero-effect) — regardless of whether the friendly damage is nonzero.  The index
function itself is monotonically decreasing, equals `-1000` for every rate ≥ 0.91 and
`99/(rate-1) + 100` otherwise. -/
theorem friendly_fire_component_behavior
    (mi : MissionCachedInfo) (assigned : List AssignedKPI)
    (c2g p2n : List (Int × String)) (scouts : List String) (cfg : KPIConfig)
    (out : MissionKPICachedInfo)
    (hgen : MissionKPICachedInfo.generate mi assigned c2g p2n scouts cfg = some out)
    (p : Int) (comps : List (KPIComponent × PlayerRawKPIData))
    (hp : lookupA out.raw_kpi_data p = some comps)
    (d : PlayerRawKPIData) (hd : lookupA comps KPIComponent.FriendlyFire = some d) :
    (epsilonGuard (non_ff_damage_of mi p + player_friendly_fire_of mi p) →
        d.raw_index = 1)
    ∧ (¬ epsilonGuard (non_ff_damage_of mi p + player_friendly_fire_of mi p) →
        d.raw_index = friendly_fire_index (player_friendly_fire_of mi p /
          (non_ff_damage_of mi p + player_friendly_fire_of mi p)))
    ∧ (∀ x y : ℚ, x ≤ y → friendly_fire_index y ≤ friendly_fire_index x)
    ∧ (∀ r : ℚ, r ≥ 91 / 100 → friendly_fire_index r = -1000)
    ∧ (∀ r : ℚ, ¬ r ≥ 91 / 100 → friendly_fire_index r = 99 / (r - 1) + 100) := by
  obtain ⟨res, hfold, hraw, _⟩ := missionKPI_generate_inversion hgen
  rw [hraw] at hp
  rcases kpiPlayerFold_lookup mi cfg _ _ _ _ _ _ _ _ _ _ c2g p2n scouts
      mi.player_info ([], []) res hfold p comps hp with
    ⟨pi0, _, hid, cwt, hc⟩ | habs
  · subst hid
    rw [hc, playerRawKPIDataFor_lookup_ff] at hd
    cases hd
    refine ⟨?_, ?_, fun x y h => friendly_fire_index_antitone h,
      fun r h => by simp [friendly_fire_index, h],
      fun r h => by simp [friendly_fire_index, h]⟩
    · intro h
      show ff_index_of mi (damage_map_of mi) pi0.player_id = 1
      unfold ff_index_of
      unfold non_ff_damage_of at h
      rw [if_pos h]
    · intro h
      show ff_index_of mi (damage_map_of mi) pi0.player_id = _
      unfold ff_index_of
      unfold non_ff_damage_of at h ⊢
      rw [if_neg h]
  · exact absurd habs (by simp [lookupA])

/-- Witness for the amended C4 at the concrete tiny-friendly-fire mission. -/
theorem friendly_fire_component_behavior_witness :
    (MissionKPICachedInfo.generate c4Mission [] gC2G gP2N [] gConfig = some c4Out)
    ∧ lookupA c4Out.raw_kpi_data 1 = some c4Comps
    ∧ lookupA c4Comps KPIComponent.FriendlyFire = some c4FF
    ∧ ((epsilonGuard (non_ff_damage_of c4Mission 1 + player_friendly_fire_of c4Mission 1)
          → c4FF.raw_index = 1)
       ∧ (¬ epsilonGuard (non_ff_damage_of c4Mission 1
              + player_friendly_fire_of c4Mission 1) →
          c4FF.raw_index = friendly_fire_index (player_friendly_fire_of c4Mission 1 /
            (non_ff_damage_of c4Mission 1 + player_friendly_fire_of c4Mission 1)))
       ∧ (∀ x y : ℚ, x ≤ y → friendly_fire_index y ≤ friendly_fire_index x)
       ∧ (∀ r : ℚ, r ≥ 91 / 100 → friendly_fire_index r = -1000)
       ∧ (∀ r : ℚ, ¬ r ≥ 91 / 100 → friendly_fire_index r = 99 / (r - 1) + 100)) := by
  have h1 : MissionKPICachedInfo.generate c4Mission [] gC2G gP2N [] gConfig
      = some c4Out := by with_unfolding_all decide
  have h2 : lookupA c4Out.raw_kpi_data 1 = some c4Comps := by with_unfolding_all decide
  have h3 : lookupA c4Comps KPIComponent.FriendlyFire = some c4FF := by
    with_unfolding_all decide
  exact ⟨h1, h2, h3,
    friendly_fire_component_behavior c4Mission [] gC2G gP2N [] gConfig c4Out h1 1
      c4Comps h2 c4FF h3⟩

/-- Claim C4 (counterexample): in `c4Mission` player 1's only damage is `0.0005`
friendly fire — the denominator is below `1e-3` AND the friendly damage is nonzero, yet
the stored FriendlyFire index is `1.0` (the zero-effect value), not the full penalty
`friendly_fire_index(1.0) = -1000` the claim prescribes for this case. -/
theorem friendly_fire_fallback_counterexample :
    (MissionKPICachedInfo.generate c4Mission [] gC2G gP2N [] gConfig).map
        (fun out => (lookupA out.raw_kpi_data 1).map
          (fun comps => (lookupA comps KPIComponent.FriendlyFire).map
            PlayerRawKPIData.raw_index))
      = some (some (some 1))
    ∧ player_friendly_fire_of c4Mission 1 = 1 / 2000
    ∧ player_friendly_fire_of c4Mission 1 ≠ 0
    ∧ epsilonGuard (non_ff_damage_of c4Mission 1 + player_friendly_fire_of c4Mission 1)
    ∧ friendly_fire_index 1 = -1000
    ∧ (1 : ℚ) ≠ -1000 := by
  with_unfolding_all decide

/-- One merge step: `overallAfter` over a singleton (definitional unfolding). -/
theorem overallAfter_cons (r : AssignedKPI) (l : List AssignedKPI) (i : Option ℚ) :
    overallAfter (r :: l) i
      = overallAfter l (if r.total_delta_value ≠ 0 then some r.total_delta_value else i)
    := rfl

theorem mergeAssignedRow_overall_self (acc : List (Int × PlayerAssignedKPIInfo))
    (r : AssignedKPI) :
    ∃ e, lookupA (mergeAssignedRow acc r) r.player_id = some e ∧
      e.overall = (if r.total_delta_value ≠ 0 then some r.total_delta_value
        else match lookupA acc r.player_id with
             | some i => i.overall
             | none => none) := by
  unfold mergeAssignedRow
  rw [lookupA_upsertWith_self]
  refine ⟨_, rfl, ?_⟩
  cases hl : lookupA acc r.player_id <;>
    by_cases hc : r.kpi_component_delta_value ≠ 0 <;>
      by_cases ht : r.total_delta_value ≠ 0 <;>
        simp [hl, hc, ht, Option.getD]

theorem mergeAssignedRow_lookup_ne (acc : List (Int × PlayerAssignedKPIInfo))
    (r : AssignedKPI) (p : Int) (h : p ≠ r.player_id) :
    lookupA (mergeAssignedRow acc r) p = lookupA acc p :=
  lookupA_upsertWith_ne acc r.player_id p _ _ h

/-- The merge fold records, per player, the `overallAfter` of its own rows. -/
theorem mergeAssigned_lookup_overall :
    ∀ (rows : List AssignedKPI) (acc : List (Int × PlayerAssignedKPIInfo)) (p : Int)
      (info : PlayerAssignedKPIInfo),
      lookupA (rows.foldl mergeAssignedRow acc) p = some info →
      info.overall = overallAfter (rows.filter (fun r => r.player_id == p))
        (match lookupA acc p with
         | some i => i.overall
         | none => none) := by
  intro rows
  induction rows with
  | nil =>
    intro acc p info h
    simp only [List.foldl_nil] at h
    simp [overallAfter, h]
  | cons r rest ih =>
    intro acc p info h
    rw [List.foldl_cons] at h
    have hih := ih (mergeAssignedRow acc r) p info h
    by_cases hp : r.player_id = p
    · obtain ⟨e, he, heo⟩ := mergeAssignedRow_overall_self acc r
      rw [hp] at he heo
      rw [he] at hih
      have hfilt : (r :: rest).filter (fun r2 => r2.player_id == p)
          = r :: rest.filter (fun r2 => r2.player_id == p) := by
        simp [List.filter_cons, hp]
      rw [hfilt, overallAfter_cons]
      simp only at hih
      rw [hih, heo]
    · have hne : lookupA (mergeAssignedRow acc r) p = lookupA acc p :=
        mergeAssignedRow_lookup_ne acc r p (fun hep => hp hep.symm)
      rw [hne] at hih
      have hfilt : (r :: rest).filter (fun r2 => r2.player_id == p)
          = rest.filter (fun r2 => r2.player_id == p) := by
        simp [List.filter_cons, hp]
      rw [hfilt]
      exact hih

/-- `overallAfter` computes the last nonzero overall delta (or keeps the initial
value). -/
theorem overallAfter_eq_getLast :
    ∀ (l : List AssignedKPI) (init : Option ℚ),
      overallAfter l init =
        match (l.filter (fun r => r.total_delta_value != 0)).getLast? with
        | some r => some r.total_delta_value
        | none => init := by
  intro l
  induction l with
  | nil => intro init; rfl
  | cons r rest ih =>
    intro init
    rw [overallAfter_cons]
    by_cases ht : r.total_delta_value ≠ 0
    · rw [if_pos ht]
      have hfilt : (r :: rest).filter (fun r2 => r2.total_delta_value != 0)
          = r :: rest.filter (fun r2 => r2.total_delta_value != 0) := by
        simp [List.filter_cons, ht]
      rw [hfilt, ih]
      cases hrest : rest.filter (fun r2 => r2.total_delta_value != 0) with
      | nil => simp
      | cons a l2 =>
        cases hg : (a :: l2).getLast? with
        | none => simp at hg
        | some x => simp [hg]
    · rw [if_neg ht]
      have hfilt : (r :: rest).filter (fun r2 => r2.total_delta_value != 0)
          = rest.filter (fun r2 => r2.total_delta_value != 0) := by
        simp only [ne_eq, not_not] at ht
        simp [List.filter_cons, ht]
      rw [hfilt, ih]

/-- Claim C7 (amended): for a sequence of manual score-adjustment rows, the overall
delta recorded for a (mission, player) pair is the LAST nonzero overall delta value of
that player's rows — each nonzero `total_delta_value` overwrites `entry.overall`
(src/backend/src/cache/mission.rs lines 1056–1058); the first value does not win. -/
theorem assigned_overall_last_nonzero
    (mi : MissionCachedInfo) (assigned : List AssignedKPI)
    (c2g p2n : List (Int × String)) (scouts : List String) (cfg : KPIConfig)
    (out : MissionKPICachedInfo)
    (hgen : MissionKPICachedInfo.generate mi assigned c2g p2n scouts cfg = some out)
    (p : Int) (info : PlayerAssignedKPIInfo)
    (hp : lookupA out.assigned_kpi_info p = some info) :
    info.overall =
      match ((assigned.filter (fun r => r.player_id == p)).filter
          (fun r => r.total_delta_value != 0)).getLast? with
      | some r => some r.total_delta_value
      | none => none := by
  obtain ⟨res, hfold, hraw, hassigned⟩ := missionKPI_generate_inversion hgen
  rw [hassigned] at hp
  have h := mergeAssigned_lookup_overall assigned [] p info hp
  rw [h, overallAfter_eq_getLast]
  rfl

/-- Witness for the amended C7: with nonzero deltas 1 then 2, the recorded overall is
the last one, `2`. -/
theorem assigned_overall_last_nonzero_witness :
    (MissionKPICachedInfo.generate c4Mission c7Rows gC2G gP2N [] gConfig = some c7Out)
    ∧ lookupA c7Out.assigned_kpi_info 1 = some c7Info
    ∧ c7Info.overall =
        match ((c7Rows.filter (fun r => r.player_id == 1)).filter
            (fun r => r.total_delta_value != 0)).getLast? with
        | some r => some r.total_delta_value
        | none => none := by
  have h1 : MissionKPICachedInfo.generate c4Mission c7Rows gC2G gP2N [] gConfig
      = some c7Out := by with_unfolding_all decide
  have h2 : lookupA c7Out.assigned_kpi_info 1 = some c7Info := by
    with_unfolding_all decide
  exact ⟨h1, h2,
    assigned_overall_last_nonzero c4Mission c7Rows gC2G gP2N [] gConfig c7Out h1 1
      c7Info h2⟩

/-- Claim C7 (counterexample): with two rows of nonzero overall deltas 1 then 2 for
(mission 2, player 1), the recorded overall delta is `2` — the LAST nonzero value, not
the first (`1`) as the claim states. -/
theorem assigned_overall_first_nonzero_counterexample :
    (MissionKPICachedInfo.generate c4Mission c7Rows gC2G gP2N [] gConfig).map
        (fun out => (lookupA out.assigned_kpi_info 1).map PlayerAssignedKPIInfo.overall)
      = some (some (some 2))
    ∧ ((c7Rows.filter (fun r => r.player_id == 1)).filter
        (fun r => r.total_delta_value != 0)).head?.map AssignedKPI.total_delta_value
      = some 1
    ∧ some (2 : ℚ) ≠ some (1 : ℚ) := by
  with_unfolding_all decide

/-- Claim C8 (counterexample): in the spec's end-to-end scenario (100 damage to a
non-blacklisted entity plus 10 friendly-fire damage), the aggregates match the claim —
non-friendly total 100, rate `10/110 = 1/11` — but the resulting FriendlyFire index is
`99/(1/11 - 1) + 100 = -8.9`, not `≈ 8.1`: the claim's own formula evaluates to `-8.9`,
17 away from the asserted value. -/
theorem ff_scenario_index_counterexample :
    (MissionCachedInfo.generate c8RawInfo [] [] [] c8IDMapping = some c8Mission)
    ∧ (MissionKPICachedInfo.generate c8Mission [] gC2G gP2N [] gConfig = some c8Out)
    ∧ non_ff_damage_of c8Mission 1 = 100
    ∧ player_friendly_fire_of c8Mission 1 = 10
    ∧ player_friendly_fire_of c8Mission 1 /
        (non_ff_damage_of c8Mission 1 + player_friendly_fire_of c8Mission 1) = 1 / 11
    ∧ (lookupA c8Out.raw_kpi_data 1).map (fun comps =>
        (lookupA comps KPIComponent.FriendlyFire).map PlayerRawKPIData.raw_index)
      = some (some (-89 / 10))
    ∧ ¬ |(-89 / 10 : ℚ) - 81 / 10| ≤ 1 := by
  with_unfolding_all decide

/-- Claim C8 (amended): the scenario's aggregates are as the claim states (non-friendly
total 100, rate `1/11 ≈ 0.0909`), and the resulting FriendlyFire index is
`99/(1/11 − 1) + 100 = −8.9` (the value of the claim's own formula). -/
theorem ff_scenario_index_amended :
    (MissionCachedInfo.generate c8RawInfo [] [] [] c8IDMapping = some c8Mission)
    ∧ (MissionKPICachedInfo.generate c8Mission [] gC2G gP2N [] gConfig = some c8Out)
    ∧ non_ff_damage_of c8Mission 1 = 100
    ∧ player_friendly_fire_of c8Mission 1 = 10
    ∧ player_friendly_fire_of c8Mission 1 /
        (non_ff_damage_of c8Mission 1 + player_friendly_fire_of c8Mission 1) = 1 / 11
    ∧ friendly_fire_index (1 / 11) = 99 / (1 / 11 - 1) + 100
    ∧ friendly_fire_index (1 / 11) = -89 / 10
    ∧ (lookupA c8Out.raw_kpi_data 1).map (fun comps =>
        (lookupA comps KPIComponent.FriendlyFire).map PlayerRawKPIData.raw_index)
      = some (some (-89 / 10)) := by
  with_unfolding_all decide

/-- The key set of `upsertWith m k d f` is exactly `{k}` together with the keys of
`m`. -/
theorem mapKeys_upsertWith_iff {α β : Type} [DecidableEq α] (m : List (α × β)) (k k9 : α)
    (d : β) (f : β → β) :
    k9 ∈ mapKeys (upsertWith m k d f) ↔ k9 = k ∨ k9 ∈ mapKeys m := by
  induction m with
  | nil => simp [upsertWith, mapKeys]
  | cons hd tl ih =>
    obtain ⟨k0, v0⟩ := hd
    rw [upsertWith]
    by_cases hk : k = k0
    · subst hk
      rw [if_pos rfl]
      simp only [mapKeys, List.map_cons, List.mem_cons]
      tauto
    · rw [if_neg hk]
      simp only [mapKeys, List.map_cons, List.mem_cons] at ih ⊢
      rw [ih]
      tauto

/-- The key set of `insertOv m k v`. -/
theorem mapKeys_insertOv_iff {α β : Type} [DecidableEq α] (m : List (α × β)) (k k9 : α)
    (v : β) : k9 ∈ mapKeys (insertOv m k v) ↔ k9 = k ∨ k9 ∈ mapKeys m :=
  mapKeys_upsertWith_iff m k k9 v (fun _ => v)

/-- The key set of the roster fold that builds `player_index`, `revive_count` and
`death_count`: the initial keys together with the roster's player ids. -/
theorem mapKeys_player_fold {β : Type} (f : PlayerInfo → β) :
    ∀ (l : List PlayerInfo) (init : List (Int × β)) (k : Int),
      (k ∈ mapKeys (l.foldl (fun acc p => insertOv acc p.player_id (f p)) init) ↔
        k ∈ mapKeys init ∨ ∃ p ∈ l, p.player_id = k) := by
  intro l
  induction l with
  | nil =>
    intro init k
    simp
  | cons q rest ih =>
    intro init k
    rw [List.foldl_cons, ih, mapKeys_insertOv_iff]
    constructor
    · rintro ((hk | hinit) | ⟨p, hp, hpk⟩)
      · exact Or.inr ⟨q, List.mem_cons_self _ _, hk.symm⟩
      · exact Or.inl hinit
      · exact Or.inr ⟨p, List.mem_cons_of_mem _ hp, hpk⟩
    · rintro (hinit | ⟨p, hp, hpk⟩)
      · exact Or.inl (Or.inr hinit)
      · rcases List.mem_cons.mp hp with rfl | hp2
        · exact Or.inl (Or.inl hpk.symm)
        · exact Or.inr ⟨p, hp2, hpk⟩

/-- Inversion of `MissionCachedInfo.generate`: each sub-map of a successfully generated
snapshot is the corresponding source fold. -/
theorem missionCached_generate_inversion {raw : MissionRawInfo} {ebl : List String}
    {ec wc : List (String × String)} {idm : IDMapping} {out : MissionCachedInfo}
    (hgen : MissionCachedInfo.generate raw ebl ec wc idm = some out) :
    out.player_index = raw.player_info_list.foldl
      (fun acc p => insertOv acc p.player_id
        ((p.present_time : ℚ) / (raw.mission.mission_time : ℚ))) []
    ∧ out.revive_count = raw.player_info_list.foldl
        (fun acc p => insertOv acc p.player_id p.revive_num) []
    ∧ out.death_count = raw.player_info_list.foldl
        (fun acc p => insertOv acc p.player_id p.death_num) []
    ∧ raw.raw_kill_info_list.foldlM
        (processKillRow ebl ec idm.id_to_entity_game_id) [] = some out.kill_info
    ∧ (∃ wd, raw.raw_damage_info_list.foldlM
        (processDamageRow ebl ec wc idm.id_to_player_name idm.id_to_entity_game_id
          idm.id_to_weapon_game_id) ([], []) = some (out.damage_info, wd))
    ∧ raw.raw_resource_info_list.foldlM
        (processResourceRow idm.id_to_resource_game_id) [] = some out.resource_info
    ∧ out.supply_info = raw.raw_supply_info_list.foldl processSupplyRow [] := by
  simp only [MissionCachedInfo.generate] at hgen
  split at hgen
  · exact Option.noConfusion hgen
  · rename_i kinfo hkfold
    split at hgen
    · exact Option.noConfusion hgen
    · rename_i dinfo wdetails hdfold
      split at hgen
      · exact Option.noConfusion hgen
      · rename_i rinfo hrfold
        split at hgen
        · exact Option.noConfusion hgen
        · rename_i winfo hwfold
          cases hgen
          exact ⟨rfl, rfl, rfl, hkfold, ⟨wdetails, hdfold⟩, hrfold, rfl⟩

/-- The kill-row loop preserves "every key satisfies `P`" when the row's player id
satisfies `P`. -/
theorem processKillRow_keys {ebl : List String} {ec : List (String × String)}
    {i2e : List (Int × String)} (P : Int → Prop)
    {acc acc2 : List (Int × List (String × KillPack))} {row : KillInfoRow}
    (hrow : P row.player_id) (hacc : ∀ k ∈ mapKeys acc, P k)
    (hstep : processKillRow ebl ec i2e acc row = some acc2) :
    ∀ k ∈ mapKeys acc2, P k := by
  simp only [processKillRow] at hstep
  split at hstep
  · exact Option.noConfusion hstep
  · split at hstep
    · cases hstep
      exact hacc
    · cases hstep
      intro k hk
      rcases (mapKeys_upsertWith_iff _ _ _ _ _).mp hk with rfl | hm
      · exact hrow
      · exact hacc k hm

/-- The damage-row loop preserves "every damage-map key satisfies `P`" when every
player-caused row's causer id satisfies `P`. -/
theorem processDamageRow_keys {ebl : List String} {ec wc : List (String × String)}
    {i2p i2e i2w : List (Int × String)} (P : Int → Prop)
    {acc acc2 : List (Int × List (String × DamagePack)) ×
                List (String × List (String × DamagePack))}
    {row : DamageInfoRow} (hrow : row.causer_type = 1 → P row.causer_id)
    (hacc : ∀ k ∈ mapKeys acc.1, P k)
    (hstep : processDamageRow ebl ec wc i2p i2e i2w acc row = some acc2) :
    ∀ k ∈ mapKeys acc2.1, P k := by
  simp only [processDamageRow] at hstep
  split at hstep
  · cases hstep
    exact hacc
  · rename_i hct
    split at hstep
    · exact Option.noConfusion hstep
    · cases hstep
      exact hacc
    · split at hstep
      · exact Option.noConfusion hstep
      · cases hstep
        intro k hk
        rcases (mapKeys_upsertWith_iff _ _ _ _ _).mp hk with rfl | hm
        · exact hrow (not_not.mp hct)
        · exact hacc k hm

/-- The resource-row loop preserves "every key satisfies `P`" when the row's player id
satisfies `P`. -/
theorem processResourceRow_keys {i2r : List (Int × String)} (P : Int → Prop)
    {acc acc2 : List (Int × List (String × ℚ))} {row : ResourceInfoRow}
    (hrow : P row.player_id) (hacc : ∀ k ∈ mapKeys acc, P k)
    (hstep : processResourceRow i2r acc row = some acc2) :
    ∀ k ∈ mapKeys acc2, P k := by
  simp only [processResourceRow] at hstep
  split at hstep
  · exact Option.noConfusion hstep
  · cases hstep
    intro k hk
    rcases (mapKeys_upsertWith_iff _ _ _ _ _).mp hk with rfl | hm
    · exact hrow
    · exact hacc k hm

/-- The supply fold only introduces keys that are its rows' player ids. -/
theorem supplyFold_keys (P : Int → Prop) :
    ∀ {l : List SupplyInfoRow} {acc : List (Int × List SupplyPack)},
      (∀ r ∈ l, P r.player_id) → (∀ k ∈ mapKeys acc, P k) →
      ∀ k ∈ mapKeys (l.foldl processSupplyRow acc), P k := by
  intro l
  induction l with
  | nil =>
    intro acc _ hacc
    simpa using hacc
  | cons r rest ih =>
    intro acc hrows hacc
    rw [List.foldl_cons]
    refine ih (fun r2 hr2 => hrows r2 (List.mem_cons_of_mem _ hr2)) ?_
    intro k hk
    simp only [processSupplyRow] at hk
    rcases (mapKeys_upsertWith_iff _ _ _ _ _).mp hk with rfl | hm
    · exact hrows r (List.mem_cons_self _ _)
    · exact hacc k hm

/-- Claim C9: with an empty roster but a kill row for player 7, the generated snapshot
has 7 as a `kill_info` key while the `player_index` presence map does not contain it —
ids referenced by a sub-map need not appear in the presence index. -/
theorem submap_keys_in_player_index_counterexample :
    MissionCachedInfo.generate c9RawInfo [] [] [] c9IDMapping = some c9Out
    ∧ (7 : Int) ∈ mapKeys c9Out.kill_info
    ∧ (7 : Int) ∉ mapKeys c9Out.player_index := by
  with_unfolding_all decide

/-- Claim C9 (amended): if every kill, resource and supply row's player id and every
player-caused damage row's causer id occurs among the roster rows' player ids, then
every key of `kill_info`, `damage_info`, `resource_info`, `revive_count`,
`death_count` and `supply_info` of the generated snapshot is a key of
`player_index`. -/
theorem submap_keys_in_player_index {raw : MissionRawInfo} {ebl : List String}
    {ec wc : List (String × String)} {idm : IDMapping} {out : MissionCachedInfo}
    (hgen : MissionCachedInfo.generate raw ebl ec wc idm = some out)
    (hkill : ∀ r ∈ raw.raw_kill_info_list,
      ∃ p ∈ raw.player_info_list, p.player_id = r.player_id)
    (hdmg : ∀ r ∈ raw.raw_damage_info_list, r.causer_type = 1 →
      ∃ p ∈ raw.player_info_list, p.player_id = r.causer_id)
    (hres : ∀ r ∈ raw.raw_resource_info_list,
      ∃ p ∈ raw.player_info_list, p.player_id = r.player_id)
    (hsup : ∀ r ∈ raw.raw_supply_info_list,
      ∃ p ∈ raw.player_info_list, p.player_id = r.player_id) :
    (∀ k ∈ mapKeys out.kill_info, k ∈ mapKeys out.player_index)
    ∧ (∀ k ∈ mapKeys out.damage_info, k ∈ mapKeys out.player_index)
    ∧ (∀ k ∈ mapKeys out.resource_info, k ∈ mapKeys out.player_index)
    ∧ (∀ k ∈ mapKeys out.revive_count, k ∈ mapKeys out.player_index)
    ∧ (∀ k ∈ mapKeys out.death_count, k ∈ mapKeys out.player_index)
    ∧ (∀ k ∈ mapKeys out.supply_info, k ∈ mapKeys out.player_index) := by
  obtain ⟨hpi, hrev, hdth, hki, ⟨wd, hdi⟩, hri, hsi⟩ :=
    missionCached_generate_inversion hgen
  have hPidx : ∀ k : Int, (∃ p ∈ raw.player_info_list, p.player_id = k) →
      k ∈ mapKeys out.player_index := by
    intro k hk
    rw [hpi, mapKeys_player_fold]
    exact Or.inr hk
  refine ⟨?_, ?_, ?_, ?_, ?_, ?_⟩
  · intro k hk
    refine hPidx k ?_
    exact foldlM_option_preserve
      (Q := fun m => ∀ k2 ∈ mapKeys m, ∃ p ∈ raw.player_info_list, p.player_id = k2)
      (fun s a ha s2 hQ hs =>
        processKillRow_keys (fun k2 => ∃ p ∈ raw.player_info_list, p.player_id = k2)
          (hkill a ha) hQ hs)
      (by intro k2 hk2; simp [mapKeys] at hk2) hki k hk
  · intro k hk
    refine hPidx k ?_
    exact foldlM_option_preserve
      (Q := fun (m : List (Int × List (String × DamagePack)) ×
                 List (String × List (String × DamagePack))) =>
        ∀ k2 ∈ mapKeys m.1, ∃ p ∈ raw.player_info_list, p.player_id = k2)
      (fun s a ha s2 hQ hs =>
        processDamageRow_keys (fun k2 => ∃ p ∈ raw.player_info_list, p.player_id = k2)
          (hdmg a ha) hQ hs)
      (by intro k2 hk2; simp [mapKeys] at hk2) hdi k hk
  · intro k hk
    refine hPidx k ?_
    exact foldlM_option_preserve
      (Q := fun m => ∀ k2 ∈ mapKeys m, ∃ p ∈ raw.player_info_list, p.player_id = k2)
      (fun s a ha s2 hQ hs =>
        processResourceRow_keys (fun k2 => ∃ p ∈ raw.player_info_list, p.player_id = k2)
          (hres a ha) hQ hs)
      (by intro k2 hk2; simp [mapKeys] at hk2) hri k hk
  · intro k hk
    rw [hrev, mapKeys_player_fold] at hk
    rcases hk with hinit | hex
    · simp [mapKeys] at hinit
    · exact hPidx k hex
  · intro k hk
    rw [hdth, mapKeys_player_fold] at hk
    rcases hk with hinit | hex
    · simp [mapKeys] at hinit
    · exact hPidx k hex
  · intro k hk
    rw [hsi] at hk
    refine hPidx k ?_
    exact supplyFold_keys (fun k2 => ∃ p ∈ raw.player_info_list, p.player_id = k2)
      hsup (by intro k2 hk2; simp [mapKeys] at hk2) k hk

/-- Witness for the amended C9 invariant at the one-player witness mission: the id of
the roster player, which keys every sub-map there, is a `player_index` key. -/
theorem submap_keys_in_player_index_witness :
    (1 : Int) ∈ mapKeys c9WitOut.player_index := by
  have hgen : MissionCachedInfo.generate c9WitRaw [] [] [] c9WitMapping
      = some c9WitOut := by
    with_unfolding_all rfl
  refine (submap_keys_in_player_index hgen ?_ ?_ ?_ ?_).1 1 ?_
  · with_unfolding_all decide
  · with_unfolding_all decide
  · with_unfolding_all decide
  · with_unfolding_all decide
  · with_unfolding_all decide

/-- A weight read from a weight table (defaulting to 1 for absent keys) is non-negative
when the table's entries are. -/
theorem weight_nonneg {wt : List (String × ℚ)} (hwt : ∀ sv ∈ wt, 0 ≤ sv.2) (s : String) :
    0 ≤ (lookupA wt s).getD 1 := by
  cases hl : lookupA wt s with
  | none => simp
  | some w => simpa using hwt (s, w) (lookupA_mem hl)

/-- `apply_weight_table` followed by `values().sum()` is the sum of value-times-weight
over the entries, with absent keys weighted 1. -/
theorem valuesSum_apply_weight_table (wt m : List (String × ℚ)) :
    valuesSum (apply_weight_table m wt)
      = (m.map (fun sv => sv.2 * (lookupA wt sv.1).getD 1)).sum := by
  unfold valuesSum apply_weight_table
  rw [List.map_map]
  congr 1
  apply List.map_congr_left
  intro sv _
  cases hl : lookupA wt sv.1 with
  | none => simp [Function.comp, hl]
  | some w => simp [Function.comp, hl]

/-- Upserting `+ c` at key `s` adds `c` times the weight of `s` to the weighted value
sum. -/
theorem map_term_upsertWith_sum (wt : List (String × ℚ)) (s : String) (c : ℚ) :
    ∀ (m : List (String × ℚ)),
      ((upsertWith m s 0 (fun x => x + c)).map
          (fun sv => sv.2 * (lookupA wt sv.1).getD 1)).sum
      = (m.map (fun sv => sv.2 * (lookupA wt sv.1).getD 1)).sum
        + c * (lookupA wt s).getD 1 := by
  intro m
  induction m with
  | nil => simp [upsertWith]
  | cons hd tl ih =>
    obtain ⟨k0, v0⟩ := hd
    rw [upsertWith]
    by_cases hk : s = k0
    · subst hk
      rw [if_pos rfl]
      simp only [List.map_cons, List.sum_cons]
      ring
    · rw [if_neg hk]
      simp only [List.map_cons, List.sum_cons, ih]
      ring

/-- The combining fold of `combine_player_info` accumulates the weighted value sum of
its entries. -/
theorem combine_fold_term_sum {V : Type} (kf : V → ℚ) (wt : List (String × ℚ)) :
    ∀ (L : List (String × V)) (acc : List (String × ℚ)),
      ((L.foldl (fun a sv => upsertWith a sv.1 0 (fun x => x + kf sv.2)) acc).map
          (fun sv => sv.2 * (lookupA wt sv.1).getD 1)).sum
      = (acc.map (fun sv => sv.2 * (lookupA wt sv.1).getD 1)).sum
        + (L.map (fun sv => kf sv.2 * (lookupA wt sv.1).getD 1)).sum := by
  intro L
  induction L with
  | nil =>
    intro acc
    simp
  | cons sv rest ih =>
    intro acc
    rw [List.foldl_cons, ih, map_term_upsertWith_sum]
    simp only [List.map_cons, List.sum_cons]
    ring

/-- The weighted value sum of a combined map is the weighted sum of all inner entries
of all players. -/
theorem combine_wsum {V : Type} (kf : V → ℚ) (wt : List (String × ℚ))
    (origin : List (Int × List (String × V))) :
    valuesSum (apply_weight_table (combine_player_info origin kf) wt)
      = (((origin.map Prod.snd).flatten).map
          (fun sv => kf sv.2 * (lookupA wt sv.1).getD 1)).sum := by
  rw [valuesSum_apply_weight_table]
  simp only [combine_player_info]
  rw [combine_fold_term_sum]
  simp

/-- The weighted value sum of a `filterMap`ped inner map equals the weighted sum of the
raw entries with `none`s counted as 0. -/
theorem filterMap_term_sum {V : Type} (kf9 : V → Option ℚ) (wt : List (String × ℚ)) :
    ∀ (l : List (String × V)),
      ((l.filterMap (fun iv => (kf9 iv.2).map (fun o => (iv.1, o)))).map
          (fun sv => sv.2 * (lookupA wt sv.1).getD 1)).sum
      = (l.map (fun sv => ((kf9 sv.2).getD 0) * (lookupA wt sv.1).getD 1)).sum := by
  intro l
  induction l with
  | nil => rfl
  | cons iv rest ih =>
    cases hk : kf9 iv.2 with
    | none => simp [List.filterMap_cons, hk, ih]
    | some c => simp [List.filterMap_cons, hk, ih]

/-- A flattened sum of member-wise non-negative terms is non-negative. -/
theorem flatten_map_term_sum_nonneg {γ : Type} (term : γ → ℚ)
    (origin : List (Int × List γ))
    (hn : ∀ kv ∈ origin, ∀ x ∈ kv.2, 0 ≤ term x) :
    0 ≤ (((origin.map Prod.snd).flatten).map term).sum := by
  apply List.sum_nonneg
  intro q hq
  obtain ⟨y, hy, rfl⟩ := List.mem_map.mp hq
  obtain ⟨l, hl, hyl⟩ := List.mem_flatten.mp hy
  obtain ⟨kv, hkv, rfl⟩ := List.mem_map.mp hl
  exact hn kv hkv y hyl

/-- One player's block contributes at most the whole flattened sum when every term is
non-negative. -/
theorem block_sum_le_flatten_sum {γ : Type} (term : γ → ℚ) :
    ∀ (origin : List (Int × List γ)),
      (∀ kv ∈ origin, ∀ x ∈ kv.2, 0 ≤ term x) →
      ∀ (pid : Int) (inner : List γ), (pid, inner) ∈ origin →
        (inner.map term).sum ≤ (((origin.map Prod.snd).flatten).map term).sum := by
  intro origin
  induction origin with
  | nil =>
    intro _ pid inner h
    simp at h
  | cons kv rest ih =>
    intro hn pid inner h
    obtain ⟨a, l⟩ := kv
    simp only [List.map_cons, List.flatten_cons, List.map_append, List.sum_append]
    have hrest : ∀ kv ∈ rest, ∀ x ∈ kv.2, 0 ≤ term x :=
      fun kv hkv => hn kv (List.mem_cons_of_mem _ hkv)
    rcases List.mem_cons.mp h with heq | h2
    · rw [Prod.mk.injEq] at heq
      obtain ⟨rfl, rfl⟩ := heq
      have h0 := flatten_map_term_sum_nonneg term rest hrest
      linarith
    · have hle := ih hrest pid inner h2
      have h0 : 0 ≤ (l.map term).sum := by
        apply List.sum_nonneg
        intro q hq
        obtain ⟨y, hy, rfl⟩ := List.mem_map.mp hq
        exact hn (a, l) (List.mem_cons_self _ _) y hy
      linarith

/-- `lookupA` through `map_inner_value` is the mapped lookup. -/
theorem lookupA_map_inner_value {V O : Type} (origin : List (Int × List (String × V)))
    (kf : V → Option O) (pid : Int) :
    lookupA (map_inner_value origin kf) pid
      = (lookupA origin pid).map
          (fun inner => inner.filterMap
            (fun iv => (kf iv.2).map (fun o => (iv.1, o)))) := by
  induction origin with
  | nil => rfl
  | cons kv rest ih =>
    obtain ⟨a, l⟩ := kv
    simp only [map_inner_value, List.map_cons, lookupA] at ih ⊢
    by_cases hk : pid = a
    · simp [hk]
    · simp [hk, ih]

/-- The central per-component inequality: one player's weighted inner sum lies between
0 and the mission-wide weighted combined sum, for non-negative values and weights. -/
theorem inner_wsum_le_combine_wsum {V : Type} (kf9 : V → Option ℚ) (kf : V → ℚ)
    (hcompat : ∀ v, (kf9 v).getD 0 = kf v)
    (wt : List (String × ℚ)) (hwt : ∀ sv ∈ wt, 0 ≤ sv.2)
    (origin : List (Int × List (String × V)))
    (hval : ∀ kv ∈ origin, ∀ sv ∈ kv.2, 0 ≤ kf sv.2) (pid : Int) :
    0 ≤ valuesSum (apply_weight_table
          ((lookupA (map_inner_value origin kf9) pid).getD []) wt)
    ∧ valuesSum (apply_weight_table
          ((lookupA (map_inner_value origin kf9) pid).getD []) wt)
      ≤ valuesSum (apply_weight_table (combine_player_info origin kf) wt) := by
  have htotal := combine_wsum kf wt origin
  have htermnn : ∀ kv ∈ origin, ∀ sv ∈ kv.2,
      0 ≤ kf sv.2 * (lookupA wt sv.1).getD 1 :=
    fun kv hkv sv hsv => mul_nonneg (hval kv hkv sv hsv) (weight_nonneg hwt sv.1)
  rw [lookupA_map_inner_value]
  cases hl : lookupA origin pid with
  | none =>
    simp only [Option.map_none', Option.getD_none]
    constructor
    · rw [valuesSum_apply_weight_table]
      simp
    · rw [valuesSum_apply_weight_table, htotal]
      simp only [List.map_nil, List.sum_nil]
      exact flatten_map_term_sum_nonneg _ origin htermnn
  | some inner =>
    have hmem := lookupA_mem hl
    simp only [Option.map_some', Option.getD_some]
    rw [valuesSum_apply_weight_table, filterMap_term_sum, htotal]
    have hcongr : (inner.map (fun sv => ((kf9 sv.2).getD 0) * (lookupA wt sv.1).getD 1))
        = inner.map (fun sv => kf sv.2 * (lookupA wt sv.1).getD 1) := by
      apply List.map_congr_left
      intro sv _
      rw [hcompat]
    rw [hcongr]
    constructor
    · apply List.sum_nonneg
      intro q hq
      obtain ⟨y, hy, rfl⟩ := List.mem_map.mp hq
      exact htermnn (pid, inner) hmem y hy
    · exact block_sum_le_flatten_sum _ origin htermnn pid inner hmem

/-- Properties of a guarded ratio `if 0 ≤ den < ε then 0 else num / den` for
`0 ≤ num ≤ den`: it lies in `[-1, 1]`, falls back to 0 exactly under the guard, and
otherwise the denominator is at least ε. -/
theorem ratio_index_props {num den : ℚ} (h0 : 0 ≤ num) (hle : num ≤ den) :
    (-1 ≤ (if epsilonGuard den then (0:ℚ) else num / den))
    ∧ ((if epsilonGuard den then (0:ℚ) else num / den) ≤ 1)
    ∧ (epsilonGuard den → (if epsilonGuard den then (0:ℚ) else num / den) = 0)
    ∧ (¬ epsilonGuard den → FLOAT_EPSILON ≤ den) := by
  by_cases hg : epsilonGuard den
  · rw [if_pos hg]
    exact ⟨by norm_num, by norm_num, fun _ => rfl, fun hng => absurd hg hng⟩
  · rw [if_neg hg]
    have hden : FLOAT_EPSILON ≤ den := by
      by_contra hlt
      exact hg ⟨le_trans h0 hle, lt_of_not_le hlt⟩
    have hpos : (0:ℚ) < den := lt_of_lt_of_le (by norm_num [FLOAT_EPSILON]) hden
    refine ⟨?_, (div_le_one hpos).mpr hle, fun hgg => absurd hgg hg, fun _ => hden⟩
    have hnn : 0 ≤ num / den := div_nonneg h0 (le_of_lt hpos)
    linarith

/-- The negated variant `if 0 ≤ den < ε then 0 else -num / den` for `0 ≤ num ≤ den`. -/
theorem neg_ratio_index_props {num den : ℚ} (h0 : 0 ≤ num) (hle : num ≤ den) :
    (-1 ≤ (if epsilonGuard den then (0:ℚ) else -num / den))
    ∧ ((if epsilonGuard den then (0:ℚ) else -num / den) ≤ 1)
    ∧ (epsilonGuard den → (if epsilonGuard den then (0:ℚ) else -num / den) = 0)
    ∧ (¬ epsilonGuard den → FLOAT_EPSILON ≤ den) := by
  by_cases hg : epsilonGuard den
  · rw [if_pos hg]
    exact ⟨by norm_num, by norm_num, fun _ => rfl, fun hng => absurd hg hng⟩
  · rw [if_neg hg]
    have hden : FLOAT_EPSILON ≤ den := by
      by_contra hlt
      exact hg ⟨le_trans h0 hle, lt_of_not_le hlt⟩
    have hpos : (0:ℚ) < den := lt_of_lt_of_le (by norm_num [FLOAT_EPSILON]) hden
    have h1 : num / den ≤ 1 := (div_le_one hpos).mpr hle
    have hnn : 0 ≤ num / den := div_nonneg h0 (le_of_lt hpos)
    have hneg : -num / den = -(num / den) := by ring
    refine ⟨?_, ?_, fun hgg => absurd hgg hg, fun _ => hden⟩
    · rw [hneg]
      linarith
    · rw [hneg]
      linarith

/-- The Revive variant `if 0 ≤ den < ε then 1 else num / den` for `0 ≤ num ≤ den`. -/
theorem revive_ratio_index_props {num den : ℚ} (h0 : 0 ≤ num) (hle : num ≤ den) :
    (-1 ≤ (if epsilonGuard den then (1:ℚ) else num / den))
    ∧ ((if epsilonGuard den then (1:ℚ) else num / den) ≤ 1)
    ∧ (epsilonGuard den → (if epsilonGuard den then (1:ℚ) else num / den) = 1)
    ∧ (¬ epsilonGuard den → FLOAT_EPSILON ≤ den) := by
  by_cases hg : epsilonGuard den
  · rw [if_pos hg]
    exact ⟨by norm_num, by norm_num, fun _ => rfl, fun hng => absurd hg hng⟩
  · rw [if_neg hg]
    have hden : FLOAT_EPSILON ≤ den := by
      by_contra hlt
      exact hg ⟨le_trans h0 hle, lt_of_not_le hlt⟩
    have hpos : (0:ℚ) < den := lt_of_lt_of_le (by norm_num [FLOAT_EPSILON]) hden
    have hnn : 0 ≤ num / den := div_nonneg h0 (le_of_lt hpos)
    refine ⟨by linarith, (div_le_one hpos).mpr hle, fun hgg => absurd hgg hg,
      fun _ => hden⟩

/-- The combining fold of `combine_player_info` accumulates the value at a single key:
it adds `kf` of every entry whose key matches. -/
theorem vAt_combine_fold {V : Type} (kf : V → ℚ) (s : String) :
    ∀ (L : List (String × V)) (acc : List (String × ℚ)),
      (lookupA (L.foldl (fun a sv => upsertWith a sv.1 0 (fun x => x + kf sv.2)) acc)
          s).getD 0
      = (lookupA acc s).getD 0
        + (L.map (fun sv => if s = sv.1 then kf sv.2 else 0)).sum := by
  intro L
  induction L with
  | nil =>
    intro acc
    simp
  | cons sv rest ih =>
    intro acc
    rw [List.foldl_cons, ih]
    simp only [List.map_cons, List.sum_cons]
    by_cases hs : s = sv.1
    · rw [if_pos hs, hs, lookupA_upsertWith_self]
      simp only [Option.getD_some]
      ring
    · rw [if_neg hs, lookupA_upsertWith_ne _ _ _ _ _ hs]
      ring

/-- The value of a combined map at one key is the sum of the matching raw entries. -/
theorem vAt_combine {V : Type} (kf : V → ℚ) (s : String)
    (origin : List (Int × List (String × V))) :
    (lookupA (combine_player_info origin kf) s).getD 0
      = (((origin.map Prod.snd).flatten).map
          (fun sv => if s = sv.1 then kf sv.2 else 0)).sum := by
  simp only [combine_player_info]
  rw [vAt_combine_fold]
  simp [lookupA]

/-- `map_inner_value` with the identity (`some`) key function is the identity. -/
theorem map_inner_value_some (origin : List (Int × List (String × ℚ))) :
    map_inner_value origin some = origin := by
  unfold map_inner_value
  conv_rhs => rw [← List.map_id origin]
  apply List.map_congr_left
  intro kv _
  simp

/-- The first-match value at a key is non-negative and bounded by the sum of all
matching entries, for non-negative values. -/
theorem vAt_le_keyed_sum (s : String) :
    ∀ (l : List (String × ℚ)), (∀ sv ∈ l, 0 ≤ sv.2) →
      0 ≤ (lookupA l s).getD 0
      ∧ (lookupA l s).getD 0 ≤ (l.map (fun sv => if s = sv.1 then sv.2 else 0)).sum := by
  intro l
  induction l with
  | nil =>
    intro _
    simp [lookupA]
  | cons sv rest ih =>
    intro hn
    obtain ⟨k, v⟩ := sv
    have hrest := ih (fun x hx => hn x (List.mem_cons_of_mem _ hx))
    have hrsum : 0 ≤ (rest.map (fun sv => if s = sv.1 then sv.2 else 0)).sum := by
      apply List.sum_nonneg
      intro q hq
      obtain ⟨y, hy, rfl⟩ := List.mem_map.mp hq
      by_cases hsy : s = y.1
      · rw [if_pos hsy]
        exact hn y (List.mem_cons_of_mem _ hy)
      · rw [if_neg hsy]
    simp only [List.map_cons, List.sum_cons, lookupA]
    by_cases hk : s = k
    · rw [if_pos hk, if_pos hk]
      simp only [Option.getD_some]
      have hv := hn (k, v) (List.mem_cons_self _ _)
      exact ⟨hv, by linarith⟩
    · rw [if_neg hk, if_neg hk]
      exact ⟨hrest.1, by linarith [hrest.2]⟩

/-- The per-player Nitra inequality: one player's first-match value at a resource key
lies between 0 and the combined mission value at that key. -/
theorem inner_vAt_le_combine_vAt (s : String) (origin : List (Int × List (String × ℚ)))
    (hval : ∀ kv ∈ origin, ∀ sv ∈ kv.2, 0 ≤ sv.2) (pid : Int) :
    0 ≤ (lookupA ((lookupA (map_inner_value origin some) pid).getD []) s).getD 0
    ∧ (lookupA ((lookupA (map_inner_value origin some) pid).getD []) s).getD 0
      ≤ (lookupA (combine_player_info origin (fun x => x)) s).getD 0 := by
  have htermnn : ∀ kv ∈ origin, ∀ x ∈ kv.2,
      0 ≤ (if s = x.1 then x.2 else 0) := by
    intro kv hkv x hx
    by_cases hsx : s = x.1
    · rw [if_pos hsx]
      exact hval kv hkv x hx
    · rw [if_neg hsx]
  rw [map_inner_value_some, vAt_combine]
  cases hl : lookupA origin pid with
  | none =>
    simp only [Option.getD_none, lookupA, Option.getD_some]
    constructor
    · exact le_refl 0
    · exact flatten_map_term_sum_nonneg _ origin htermnn
  | some inner =>
    have hmem := lookupA_mem hl
    have hinner : ∀ sv ∈ inner, 0 ≤ sv.2 := fun sv hsv => hval (pid, inner) hmem sv hsv
    have h1 := vAt_le_keyed_sum s inner hinner
    simp only [Option.getD_some]
    refine ⟨h1.1, le_trans h1.2 ?_⟩
    exact block_sum_le_flatten_sum _ origin htermnn pid inner hmem

/-- Inversion of the player fold, remembering that the weight table passed to the
per-player body is the configured table of some role (or the empty default). -/
theorem kpiPlayerFold_lookup_cwt (mi : MissionCachedInfo) (cfg : KPIConfig)
    (dm km rm : List (Int × List (String × ℚ))) (tdm tkm trm twrm : List (String × ℚ))
    (trc tdc tsc : ℚ) (c2g p2n : List (Int × String)) (scouts : List String) :
    ∀ (players : List PlayerInfo)
      (acc res : List (Int × CharacterKPIType) ×
                 List (Int × List (KPIComponent × PlayerRawKPIData))),
      players.foldlM (kpiPlayerStep mi cfg dm km rm tdm tkm trm twrm trc tdc tsc
        c2g p2n scouts) acc = some res →
      ∀ (p : Int) (comps : List (KPIComponent × PlayerRawKPIData)),
        lookupA res.2 p = some comps →
        (∃ pi0 ∈ players, pi0.player_id = p ∧ ∃ ct,
          comps = playerRawKPIDataFor mi cfg dm km rm tdm tkm trm twrm trc tdc tsc
            ((lookupA cfg.character_weight_table ct).getD []) pi0)
        ∨ lookupA acc.2 p = some comps := by
  intro players
  induction players with
  | nil =>
    intro acc res h p comps hp
    simp only [List.foldlM_nil, Option.pure_def, Option.some.injEq] at h
    subst h
    exact Or.inr hp
  | cons pi0 rest ih =>
    intro acc res h p comps hp
    rw [List.foldlM_cons] at h
    cases hstep : kpiPlayerStep mi cfg dm km rm tdm tkm trm twrm trc tdc tsc c2g p2n
        scouts acc pi0 with
    | none =>
      rw [hstep] at h
      exact Option.noConfusion h
    | some acc2 =>
      rw [hstep] at h
      simp only [Option.bind_eq_bind, Option.some_bind] at h
      rcases ih acc2 res h p comps hp with ⟨pi2, hpi2, hid, ct, hc⟩ | hacc2
      · exact Or.inl ⟨pi2, List.mem_cons_of_mem _ hpi2, hid, ct, hc⟩
      · unfold kpiPlayerStep at hstep
        split at hstep
        · split at hstep
          · exact Option.noConfusion hstep
          · rename_i ptyk hfp
            simp only [Option.some.injEq] at hstep
            rw [← hstep] at hacc2
            by_cases hpid : p = pi0.player_id
            · rw [hpid] at hacc2 ⊢
              rw [lookupA_insertOv_self] at hacc2
              cases hacc2
              exact Or.inl ⟨pi0, List.mem_cons_self _ _, rfl, ptyk, rfl⟩
            · rw [lookupA_insertOv_ne _ _ _ _ hpid] at hacc2
              exact Or.inr hacc2
        · exact Option.noConfusion hstep

/-- Claim C2: with all mission values non-negative but a negative configured character
weight, the generated Kill `raw_index` of the Driller is `-3`, outside `[-1, 1]`; the
claimed bound does not hold for arbitrary weight tables. -/
theorem raw_index_ratio_bounds_counterexample :
    MissionValuesNonneg c2Mission
    ∧ (MissionKPICachedInfo.generate c2Mission [] gC2G gP2N [] c2Config = some c2Out)
    ∧ ((lookupA c2Out.raw_kpi_data 1).map (fun comps =>
        (lookupA comps KPIComponent.Kill).map PlayerRawKPIData.raw_index)
      = some (some (-3)))
    ∧ ¬ (-1 ≤ (-3 : ℚ) ∧ (-3 : ℚ) ≤ 1) := by
  with_unfolding_all decide

/-- Claim C2 (amended): for a `MissionKPICachedInfo` generated from a cached mission
with non-negative kill, damage, resource, revive and death values under a configuration
whose weight tables are non-negative, every ratio component's `raw_index` (all
components except FriendlyFire) lies in `[-1, 1]`; when the mission-wide denominator
matches `0.0..FLOAT_EPSILON` the `raw_index` is the documented fallback (1 for Revive,
0 otherwise), and when it does not, the denominator is at least `FLOAT_EPSILON`, so no
division by zero occurs. -/
theorem raw_index_ratio_bounds {mi : MissionCachedInfo} {assigned : List AssignedKPI}
    {c2g p2n : List (Int × String)} {scouts : List String} {cfg : KPIConfig}
    {out : MissionKPICachedInfo}
    (hgen : MissionKPICachedInfo.generate mi assigned c2g p2n scouts cfg = some out)
    (hmi : MissionValuesNonneg mi) (hcfg : KPIConfigNonneg cfg) :
    ∀ (p : Int) (comps : List (KPIComponent × PlayerRawKPIData)),
      lookupA out.raw_kpi_data p = some comps →
      ∀ (c : KPIComponent) (data : PlayerRawKPIData),
        lookupA comps c = some data → c ≠ KPIComponent.FriendlyFire →
        (-1 ≤ data.raw_index ∧ data.raw_index ≤ 1)
        ∧ (epsilonGuard data.mission_total_weighted_value →
            data.raw_index = if c = KPIComponent.Revive then 1 else 0)
        ∧ (¬ epsilonGuard data.mission_total_weighted_value →
            FLOAT_EPSILON ≤ data.mission_total_weighted_value) := by
  intro p comps hp c data hd hcff
  obtain ⟨hkN, hdN, hrN, hplN⟩ := hmi
  obtain ⟨hcwT, hprT, hrwT⟩ := hcfg
  obtain ⟨res, hfold, hraw, _⟩ := missionKPI_generate_inversion hgen
  rw [hraw] at hp
  rcases kpiPlayerFold_lookup_cwt mi cfg _ _ _ _ _ _ _ _ _ _ _ _ _ mi.player_info _
      res hfold p comps hp with ⟨pi0, hpi0, hpid, ct, hc⟩ | habs
  · subst hc
    have hmem := lookupA_mem hd
    simp only [playerRawKPIDataFor] at hmem
    simp only [List.mem_cons, List.not_mem_nil, or_false] at hmem
    have hcwtn : ∀ sv ∈ (lookupA cfg.character_weight_table ct).getD [], 0 ≤ sv.2 := by
      cases hct : lookupA cfg.character_weight_table ct with
      | none =>
        intro sv hsv
        simp at hsv
      | some tbl =>
        intro sv hsv
        exact hcwT (ct, tbl) (lookupA_mem hct) sv (by simpa using hsv)
    have hKill := inner_wsum_le_combine_wsum
      (fun kill_pack => some ((kill_pack.total_amount : ℚ)))
      (fun kill_pack => ((kill_pack.total_amount : ℚ)))
      (fun v => rfl)
      ((lookupA cfg.character_weight_table ct).getD []) hcwtn
      mi.kill_info
      (fun kv hkv sv hsv => Int.cast_nonneg.mpr (hkN kv hkv sv hsv))
      pi0.player_id
    have hDamage := inner_wsum_le_combine_wsum
      (fun damage_pack => if damage_pack.taker_type = 1 then none
        else some damage_pack.total_amount)
      (fun damage_pack => if damage_pack.taker_type = 1 then 0
        else damage_pack.total_amount)
      (fun v => by by_cases h : v.taker_type = 1 <;> simp [h])
      ((lookupA cfg.character_weight_table ct).getD []) hcwtn
      mi.damage_info
      (fun kv hkv sv hsv => by
        by_cases h : sv.2.taker_type = 1
        · simp [h]
        · simpa [h] using hdN kv hkv sv hsv)
      pi0.player_id
    have hPriority := inner_wsum_le_combine_wsum
      (fun damage_pack => if damage_pack.taker_type = 1 then none
        else some damage_pack.total_amount)
      (fun damage_pack => if damage_pack.taker_type = 1 then 0
        else damage_pack.total_amount)
      (fun v => by by_cases h : v.taker_type = 1 <;> simp [h])
      cfg.priority_table hprT
      mi.damage_info
      (fun kv hkv sv hsv => by
        by_cases h : sv.2.taker_type = 1
        · simp [h]
        · simpa [h] using hdN kv hkv sv hsv)
      pi0.player_id
    have hMinerals := inner_wsum_le_combine_wsum
      (some : ℚ → Option ℚ) (fun x => x) (fun v => rfl)
      cfg.resource_weight_table hrwT
      mi.resource_info
      (fun kv hkv sv hsv => hrN kv hkv sv hsv)
      pi0.player_id
    have hNitra := inner_vAt_le_combine_vAt NITRA_GAME_ID mi.resource_info hrN
      pi0.player_id
    have hRevive : (0:ℚ) ≤ (pi0.revive_num : ℚ)
        ∧ (pi0.revive_num : ℚ)
          ≤ (((mi.player_info.map PlayerInfo.revive_num).sum : Int) : ℚ) := by
      have h0 : (0:Int) ≤ pi0.revive_num := (hplN pi0 hpi0).1
      have hle : pi0.revive_num ≤ (mi.player_info.map PlayerInfo.revive_num).sum := by
        apply List.single_le_sum
        · intro x hx
          obtain ⟨q, hq, rfl⟩ := List.mem_map.mp hx
          exact (hplN q hq).1
        · exact List.mem_map_of_mem _ hpi0
      exact ⟨by exact_mod_cast h0, by exact_mod_cast hle⟩
    have hDeath : (0:ℚ) ≤ (pi0.death_num : ℚ)
        ∧ (pi0.death_num : ℚ)
          ≤ (((mi.player_info.map PlayerInfo.death_num).sum : Int) : ℚ) := by
      have h0 : (0:Int) ≤ pi0.death_num := (hplN pi0 hpi0).2
      have hle : pi0.death_num ≤ (mi.player_info.map PlayerInfo.death_num).sum := by
        apply List.single_le_sum
        · intro x hx
          obtain ⟨q, hq, rfl⟩ := List.mem_map.mp hx
          exact (hplN q hq).2
        · exact List.mem_map_of_mem _ hpi0
      exact ⟨by exact_mod_cast h0, by exact_mod_cast hle⟩
    have hSupply : (0:ℚ) ≤ ((((lookupA mi.supply_info pi0.player_id).getD []).length : ℚ))
        ∧ ((((lookupA mi.supply_info pi0.player_id).getD []).length : ℚ))
          ≤ (((mi.supply_info.map (fun kv => (kv.2.length : Int))).sum : Int) : ℚ) := by
      constructor
      · exact_mod_cast Nat.zero_le _
      · cases hl : lookupA mi.supply_info pi0.player_id with
        | none =>
          simp only [Option.getD_none, List.length_nil, Nat.cast_zero]
          have hs : (0:Int) ≤ (mi.supply_info.map (fun kv => (kv.2.length : Int))).sum := by
            apply List.sum_nonneg
            intro x hx
            obtain ⟨kv, hkv, rfl⟩ := List.mem_map.mp hx
            exact_mod_cast Nat.zero_le _
          exact_mod_cast hs
        | some l =>
          have hmem2 := lookupA_mem hl
          have hle : (l.length : Int)
              ≤ (mi.supply_info.map (fun kv => (kv.2.length : Int))).sum := by
            apply List.single_le_sum
            · intro x hx
              obtain ⟨kv, hkv, rfl⟩ := List.mem_map.mp hx
              exact_mod_cast Nat.zero_le _
            · exact List.mem_map_of_mem _ hmem2
          simp only [Option.getD_some]
          exact_mod_cast hle
    rcases hmem with h|h|h|h|h|h|h|h|h
    · rcases h with ⟨rfl, rfl⟩
      have hk := ratio_index_props hKill.1 hKill.2
      exact ⟨⟨hk.1, hk.2.1⟩, hk.2.2.1, hk.2.2.2⟩
    · rcases h with ⟨rfl, rfl⟩
      have hk := ratio_index_props hDamage.1 hDamage.2
      exact ⟨⟨hk.1, hk.2.1⟩, hk.2.2.1, hk.2.2.2⟩
    · rcases h with ⟨rfl, rfl⟩
      have hk := ratio_index_props hPriority.1 hPriority.2
      exact ⟨⟨hk.1, hk.2.1⟩, hk.2.2.1, hk.2.2.2⟩
    · rcases h with ⟨rfl, rfl⟩
      have hk := revive_ratio_index_props hRevive.1 hRevive.2
      exact ⟨⟨hk.1, hk.2.1⟩, hk.2.2.1, hk.2.2.2⟩
    · rcases h with ⟨rfl, rfl⟩
      have hk := neg_ratio_index_props hDeath.1 hDeath.2
      exact ⟨⟨hk.1, hk.2.1⟩, hk.2.2.1, hk.2.2.2⟩
    · rcases h with ⟨rfl, rfl⟩
      exact absurd rfl hcff
    · rcases h with ⟨rfl, rfl⟩
      have hk := ratio_index_props hNitra.1 hNitra.2
      exact ⟨⟨hk.1, hk.2.1⟩, hk.2.2.1, hk.2.2.2⟩
    · rcases h with ⟨rfl, rfl⟩
      have hk := ratio_index_props hMinerals.1 hMinerals.2
      exact ⟨⟨hk.1, hk.2.1⟩, hk.2.2.1, hk.2.2.2⟩
    · rcases h with ⟨rfl, rfl⟩
      have hk := neg_ratio_index_props hSupply.1 hSupply.2
      exact ⟨⟨hk.1, hk.2.1⟩, hk.2.2.1, hk.2.2.2⟩
  · simp [lookupA] at habs

/-- Witness for the amended C2 bound: player 1's Kill record of the C2 mission under
the empty (all-ones) weight configuration satisfies the range bound, the fallback
implication and the division guard. -/
theorem raw_index_ratio_bounds_witness :
    ((-1 ≤ c2WitKill.raw_index ∧ c2WitKill.raw_index ≤ 1)
    ∧ (epsilonGuard c2WitKill.mission_total_weighted_value →
        c2WitKill.raw_index
          = if KPIComponent.Kill = KPIComponent.Revive then 1 else 0)
    ∧ (¬ epsilonGuard c2WitKill.mission_total_weighted_value →
        FLOAT_EPSILON ≤ c2WitKill.mission_total_weighted_value)) := by
  have hgen : MissionKPICachedInfo.generate c2Mission [] gC2G gP2N [] gConfig
      = some c2WitOut := by
    with_unfolding_all rfl
  refine raw_index_ratio_bounds hgen ?_ ?_ 1 c2WitComps ?_ KPIComponent.Kill c2WitKill
      ?_ ?_
  · with_unfolding_all decide
  · with_unfolding_all decide
  · with_unfolding_all rfl
  · with_unfolding_all rfl
  · with_unfolding_all decide

end MissionBackend
